import Mathlib

/-!
Shallow embedding of the verification / canonicalization / deduplication
pipeline of the lang-app backend, together with the batched extraction
driver.  Sources embedded here:

* backend/app/services/verification_service.py
  (TextVerifier, CanonicalFormComputer, SemanticDeduplicator,
   VerificationService.verify_and_canonicalize)
* backend/app/services/extract_service.py
  (validate_and_filter_items, split_into_sentence_batches,
   ExtractService.extract_items, ExtractService.extract_items_batched)

Conventions of the embedding:

* Python strings are Lean `String`; `str.lower()` is modelled by
  `pyLower` (ASCII case folding), `str.strip()` by `pyStrip`, and the
  Python substring test `needle in hay` by `strIn needle hay` (an empty
  needle is contained in every string, as in Python).
* Python list indexing `l[i]` with an `Int` index is modelled by
  `pyListGet`: negative indices wrap around from the end, and an index
  below `-len(l)` yields `none` (an `IndexError`).
* LLM calls (`ollama_client.generate_json`) are modelled by oracle
  functions in an environment structure; a `none` result stands for any
  raised exception, `some d` for a successfully parsed JSON object
  (represented as an association list with first-match lookup).
* Functions that can raise to their caller return `Option` / `Except`.
* The SQLAlchemy item store is a `List Item`; the exact-match query
  (`.first()`) is `List.find?`, and the fuzzy-match query
  (`order_by(created_at.desc()).limit(100)`) is a stable sort by
  `created_at` descending followed by `take 100`.
* `difflib.SequenceMatcher.ratio()` (no junk, inputs short enough that
  autojunk is inert) is embedded exactly: total size of the
  Ratcliff/Obershelp matching blocks, where the longest match is the
  earliest (in `a`, then in `b`) among the maximal ones, divided by the
  total length; the result is an exact rational, and the `0.85`
  threshold is `85/100`.
-/

/-! ## Python string and list primitives -/

/-- Is `pre` a prefix of `l` (character lists)? -/
def listStartsWith : List Char → List Char → Bool
  | [], _ => true
  | _ :: _, [] => false
  | c :: cs, d :: ds => c = d && listStartsWith cs ds

/-- Does `needle` occur as a contiguous sublist of `hay`?  Models the
Python substring operator; an empty needle always occurs. -/
def listContainsSub (hay needle : List Char) : Bool :=
  listStartsWith needle hay ||
    match hay with
    | [] => false
    | _ :: t => listContainsSub t needle

/-- Python `needle in hay` on strings. -/
def strIn (needle hay : String) : Bool :=
  listContainsSub hay.data needle.data

/-- ASCII model of Python `str.lower()` on one character. -/
def pyCharLower (c : Char) : Char :=
  if 'A' ≤ c ∧ c ≤ 'Z' then Char.ofNat (c.toNat + 32) else c

/-- ASCII model of Python `str.lower()`. -/
def pyLower (s : String) : String :=
  String.mk (s.data.map pyCharLower)

/-- The characters matched by the Python regex `\s` and stripped by
`str.strip()` (ASCII fragment). -/
def pyIsSpace (c : Char) : Bool :=
  c = ' ' || c = '\t' || c = '\n' || c = '\r' || c = '\x0b' || c = '\x0c'

/-- Model of Python `str.strip()`. -/
def pyStrip (s : String) : String :=
  String.mk (((s.data.dropWhile pyIsSpace).reverse.dropWhile pyIsSpace).reverse)

/-- Python list indexing `l[i]` for a possibly negative `Int` index.
`none` models an `IndexError`. -/
def pyListGet {α : Type} (l : List α) (i : Int) : Option α :=
  let j : Int := if i < 0 then i + l.length else i
  if 0 ≤ j ∧ j < l.length then l.get? j.toNat else none

/-! ## Data model (schemas/extraction.py, models/item.py) -/

/-- ExtractionEvidence (schemas/extraction.py). -/
structure ExtractionEvidence where
  sentence_idx : Int
  sentence : String
  left_context : String
  right_context : String
  deriving DecidableEq, Repr

/-- Pattern metadata carried by pattern-type items.  The field set is the
one the services read (`structure_type`, `slots`, `grammar_rule`); the
declaration itself is absent from the checked-in schema module, so the
shape is taken from its uses in extract_service.py and
verification_service.py. -/
structure PatternMeta where
  structure_type : String
  slots : List String
  grammar_rule : String
  deriving DecidableEq, Repr

/-- ExtractionItem (schemas/extraction.py), plus the `pattern_meta`
field used by the services. -/
structure ExtractionItem where
  type : String
  surface_form : String
  canonical : String
  english_gloss : String
  pos_hint : Option String
  meta : List (String × String)
  pattern_meta : Option PatternMeta
  why_worth_learning : Option String
  evidence : ExtractionEvidence
  deriving DecidableEq, Repr

/-- ExtractionEdge (schemas/extraction.py); pure pass-through data for
the pipeline. -/
structure ExtractionEdge where
  src_canonical : String
  dst_canonical : String
  type : String
  weight : Option Rat
  note : Option String
  deriving DecidableEq, Repr

/-- ExtractionSentence (schemas/extraction.py). -/
structure ExtractionSentence where
  idx : Int
  text : String
  deriving DecidableEq, Repr

/-- ExtractionOutput (schemas/extraction.py). -/
structure ExtractionOutput where
  sentences : List ExtractionSentence
  items : List ExtractionItem
  edges : List ExtractionEdge
  deriving DecidableEq, Repr

/-- VerifiedExtractionItem (schemas/extraction.py), plus the
`pattern_meta` pass-through field used by verify_and_canonicalize. -/
structure VerifiedExtractionItem where
  type : String
  surface_form : String
  canonical_form : String
  english_gloss : String
  pos_hint : Option String
  meta : List (String × String)
  pattern_meta : Option PatternMeta
  why_worth_learning : Option String
  evidence : ExtractionEvidence
  existing_item_id : Option Nat
  deriving DecidableEq, Repr

/-- The verification_stats counter dictionary of
VerificationService.verify_and_canonicalize. -/
structure VerificationStats where
  total : Nat
  verified : Nat
  hallucinated : Nat
  deduplicated : Nat
  invalid : Nat
  deriving DecidableEq, Repr

/-- VerifiedExtractionOutput (schemas/extraction.py). -/
structure VerifiedExtractionOutput where
  sentences : List ExtractionSentence
  items : List VerifiedExtractionItem
  edges : List ExtractionEdge
  verification_stats : VerificationStats
  deriving DecidableEq, Repr

/-- Persisted Item row (models/item.py); only the columns the
deduplicator reads, with `created_at` as an abstract timestamp. -/
structure Item where
  id : Nat
  type : String
  canonical_form : String
  created_at : Nat
  deriving DecidableEq, Repr

/-! ## TextVerifier (verification_service.py lines 25-76) -/

/-- The TextVerifier state: constructor lower-cases the source text and
every sentence. -/
structure TextVerifier where
  source_text : String
  sentences : List String
  deriving DecidableEq, Repr

/-- TextVerifier.__init__. -/
def TextVerifier.init (source_text : String) (sentences : List String) : TextVerifier :=
  { source_text := pyLower source_text, sentences := sentences.map pyLower }

/-- TextVerifier.verify_surface_form.  `none` models the `IndexError`
raised by `self.sentences[sentence_idx]` when `sentence_idx` is below
`-len(sentences)` (the guard in the code only rejects
`sentence_idx >= len(sentences)`). -/
def verify_surface_form (tv : TextVerifier) (surface_form : String)
    (sentence_idx : Int) (left_context right_context : String) : Option Bool :=
  if (tv.sentences.length : Int) ≤ sentence_idx then some false
  else
    match pyListGet tv.sentences sentence_idx with
    | none => none
    | some sentence =>
      let surface_lower := pyLower surface_form
      if !(strIn surface_lower sentence) && !(strIn surface_lower tv.source_text) then
        some false
      else if left_context ≠ "" || right_context ≠ "" then
        let context_pattern := pyLower left_context ++ surface_lower ++ pyLower right_context
        if !(strIn context_pattern sentence) && !(strIn context_pattern tv.source_text) then
          some false
        else
          some true
      else
        some true

/-! ## CanonicalFormComputer (verification_service.py lines 79-238) -/

/-- Lookup in a JSON-object association list (Python dict access /
`.get`): first matching key wins. -/
def dictGet (d : List (String × String)) (k : String) : Option String :=
  (d.find? (fun p => p.1 == k)).map (fun p => p.2)

/-- The LLM-call environment of CanonicalFormComputer.  `lemma_json`
models the single-item `generate_json` call (arguments: surface form,
item type, POS hint, which determine the prompt); `batch_json` models
the batched call (argument: the `items_json` word list).  A `none`
result models a raised exception; a `some` result is the parsed JSON
object, whose values are entirely up to the model. -/
structure LlmEnv where
  use_llm : Bool
  lemma_json : String → String → Option String → Option (List (String × String))
  batch_json : List (String × String × Option String) → Option (List (String × String))

/-- CanonicalFormComputer._llm_lemmatize. -/
def llm_lemmatize (env : LlmEnv) (surface item_type : String) (pos : Option String) : String :=
  match env.lemma_json surface item_type pos with
  | none => surface
  | some response_dict =>
    let lem := pyStrip ((dictGet response_dict "lemma").getD "")
    if lem = "" then surface else lem

/-- CanonicalFormComputer._fallback_lemmatize. -/
def fallback_lemmatize (surface : String) : String :=
  surface

/-- CanonicalFormComputer.compute_canonical. -/
def compute_canonical (env : LlmEnv) (surface_form item_type : String)
    (pos_hint : Option String) : String :=
  if item_type = "pattern" then surface_form
  else if item_type = "chunk" then surface_form
  else if env.use_llm then llm_lemmatize env surface_form item_type pos_hint
  else fallback_lemmatize surface_form

/-- The `items_json` list built by batch_compute_canonical: one
(surface, type, pos) triple per word-type item. -/
def wordTriples (items : List ExtractionItem) : List (String × String × Option String) :=
  (items.filter (fun i => i.type == "word")).map (fun i => (i.surface_form, i.type, i.pos_hint))

/-- CanonicalFormComputer.batch_compute_canonical.  On a successful LLM
call the parsed JSON object is returned as-is; on an exception, or when
there is no word-type item, every surface form is mapped to itself. -/
def batch_compute_canonical (env : LlmEnv) (items : List ExtractionItem) :
    List (String × String) :=
  if items.isEmpty then []
  else if (wordTriples items).isEmpty then
    items.map (fun i => (i.surface_form, i.surface_form))
  else
    match env.batch_json (wordTriples items) with
    | some response_dict => response_dict
    | none => items.map (fun i => (i.surface_form, i.surface_form))

/-! ## SequenceMatcher ratio (difflib, used by SemanticDeduplicator)

`_string_similarity` calls `SequenceMatcher(None, s1.lower(),
s2.lower()).ratio()`.  With no junk predicate (and inputs short enough
that autojunk is inert) `ratio` is `2*M/T` where `T` is the sum of the
two lengths and `M` is the total size of the Ratcliff/Obershelp matching
blocks: recursively take the longest matching block — among maximal ones
the one starting earliest in `a`, then earliest in `b` — and recurse on
the pieces to its left and to its right. -/

/-- Length of the common prefix run of two character lists. -/
def commonRunLen : List Char → List Char → Nat
  | c :: cs, d :: ds => if c = d then commonRunLen cs ds + 1 else 0
  | _, _ => 0

/-- Length of the common run of `a` and `b` starting at positions `i`
and `j`, truncated to the half-open ranges ending at `ahi` / `bhi`. -/
def matchLenAt (a b : List Char) (ahi bhi i j : Nat) : Nat :=
  commonRunLen ((a.drop i).take (ahi - i)) ((b.drop j).take (bhi - j))

/-- All (i, j) index pairs of the rectangle [alo, ahi) × [blo, bhi), in
row-major order (i ascending, then j ascending). -/
def rectPairs (alo ahi blo bhi : Nat) : List (Nat × Nat) :=
  (List.range' alo (ahi - alo)).flatMap
    (fun i => (List.range' blo (bhi - blo)).map (fun j => (i, j)))

/-- One step of the maximal-block search: keep the incumbent unless the
block starting at `p` is strictly longer (so the earliest maximal block
wins). -/
def betterBlock (a b : List Char) (ahi bhi : Nat) (best : Nat × Nat × Nat)
    (p : Nat × Nat) : Nat × Nat × Nat :=
  let k := matchLenAt a b ahi bhi p.1 p.2
  if best.2.2 < k then (p.1, p.2, k) else best

/-- SequenceMatcher.find_longest_match on [alo, ahi) × [blo, bhi):
returns (i, j, size), with (alo, blo, 0) when there is no match. -/
def find_longest_match (a b : List Char) (alo ahi blo bhi : Nat) : Nat × Nat × Nat :=
  (rectPairs alo ahi blo bhi).foldl (betterBlock a b ahi bhi) (alo, blo, 0)

/-- Fuelled recursion computing the total size of the
Ratcliff/Obershelp matching blocks of `a[alo:ahi]` and `b[blo:bhi]`.
The guard carries, besides difflib's `k != 0` test, the range bounds of
the returned block; those hold whenever `k != 0` (theorem
`find_longest_match_bounds`), so the guard is equivalent to difflib's.
Under the guard each recursive call shrinks `(ahi-alo) + (bhi-blo)` by
at least two, so the fuel `(ahi-alo) + (bhi-blo)` given by
`matching_blocks_total` is never exhausted (the recursion is fuelled
only to keep it structural, hence kernel-reducible). -/
def matchingBlocksGo (a b : List Char) : Nat → Nat → Nat → Nat → Nat → Nat
  | 0, _, _, _, _ => 0
  | fuel + 1, alo, ahi, blo, bhi =>
    let r := find_longest_match a b alo ahi blo bhi
    if 0 < r.2.2 ∧ alo ≤ r.1 ∧ r.1 < ahi ∧ blo ≤ r.2.1 ∧ r.2.1 < bhi then
      r.2.2 + matchingBlocksGo a b fuel alo r.1 blo r.2.1
        + matchingBlocksGo a b fuel (r.1 + r.2.2) ahi (r.2.1 + r.2.2) bhi
    else 0

/-- Total size of the Ratcliff/Obershelp matching blocks (the sum of
block sizes underlying SequenceMatcher.ratio). -/
def matching_blocks_total (a b : List Char) (alo ahi blo bhi : Nat) : Nat :=
  matchingBlocksGo a b ((ahi - alo) + (bhi - blo)) alo ahi blo bhi

/-- SequenceMatcher.ratio as an exact rational: 2M/T, and 1 when both
inputs are empty. -/
def seqMatcherScore (a b : List Char) : Rat :=
  let m := matching_blocks_total a b 0 a.length 0 b.length
  let t := a.length + b.length
  if t = 0 then 1 else (2 * m : Rat) / (t : Rat)

/-- SemanticDeduplicator._string_similarity: ratio of the two
lower-cased strings. -/
def string_similarity (s1 s2 : String) : Rat :=
  seqMatcherScore (pyLower s1).data (pyLower s2).data

/-! ## SemanticDeduplicator (verification_service.py lines 241-314) -/

/-- Stable insertion into a list sorted by `created_at` descending. -/
def insertByCreatedDesc (x : Item) : List Item → List Item
  | [] => [x]
  | y :: ys => if x.created_at ≤ y.created_at then y :: insertByCreatedDesc x ys
    else x :: y :: ys

/-- Stable sort by `created_at` descending: the model of the query
`ORDER BY created_at DESC`. -/
def sortByCreatedDesc (l : List Item) : List Item :=
  l.foldl (fun acc x => insertByCreatedDesc x acc) []

/-- The candidate list of the fuzzy-match step: items of the same type,
most recently created first, capped at 100 (the query
`filter type, order_by created_at desc, limit 100`). -/
def recent_items (db : List Item) (item_type : String) : List Item :=
  (sortByCreatedDesc (db.filter (fun it => it.type == item_type))).take 100

/-- The exact-match filter on canonical_form and type. -/
def is_exact_match (candidate_canonical item_type : String) (it : Item) : Bool :=
  it.canonical_form == candidate_canonical && it.type == item_type

/-- The fuzzy-match acceptance test `similarity >= self.threshold`. -/
def similar_enough (threshold : Rat) (candidate_canonical : String) (it : Item) : Bool :=
  decide (threshold ≤ string_similarity candidate_canonical it.canonical_form)

/-- SemanticDeduplicator.find_similar_items. -/
def find_similar_items (db : List Item) (threshold : Rat)
    (candidate_canonical item_type : String) : Option Item :=
  match db.find? (is_exact_match candidate_canonical item_type) with
  | some exact => some exact
  | none => (recent_items db item_type).find? (similar_enough threshold candidate_canonical)

/-! ## VerificationService.verify_and_canonicalize
(verification_service.py lines 317-458) -/

/-- The configuration and collaborators of one VerificationService
call: the LLM environment, the two feature flags (resolved from
settings or constructor arguments), and the item store. -/
structure VerifyEnv where
  llm : LlmEnv
  enable_deduplication : Bool
  batch_canonicalization : Bool
  db : List Item

/-- Step 2 of the per-item loop: take the canonical form from the batch
map when the surface form is a key of it, else compute it on demand. -/
def resolve_canonical (env : VerifyEnv) (cmap : List (String × String))
    (item : ExtractionItem) : String :=
  match dictGet cmap item.surface_form with
  | some c => c
  | none => compute_canonical env.llm item.surface_form item.type item.pos_hint

/-- Step 3 of the per-item loop: the deduplicator query, skipped when
deduplication is disabled.  The service constructs SemanticDeduplicator
with its default threshold 0.85. -/
def dedup_lookup (env : VerifyEnv) (item : ExtractionItem) (canonical_form : String) :
    Option Item :=
  if env.enable_deduplication then
    find_similar_items env.db (85 / 100) canonical_form item.type
  else none

/-- The canonical form after step 3: overwritten with the matched
item's canonical form on a deduplication hit. -/
def final_canonical (env : VerifyEnv) (cmap : List (String × String))
    (item : ExtractionItem) : String :=
  match dedup_lookup env item (resolve_canonical env cmap item) with
  | some existing => existing.canonical_form
  | none => resolve_canonical env cmap item

/-- The VerifiedExtractionItem built at the end of the loop body. -/
def mkVerifiedItem (item : ExtractionItem) (canonical_form : String)
    (existing : Option Item) : VerifiedExtractionItem :=
  { type := item.type
    surface_form := item.surface_form
    canonical_form := canonical_form
    english_gloss := item.english_gloss
    pos_hint := item.pos_hint
    meta := item.meta
    pattern_meta := item.pattern_meta
    why_worth_learning := item.why_worth_learning
    evidence := item.evidence
    existing_item_id := existing.map (fun e => e.id) }

/-- How the loop body disposes of one candidate. -/
inductive StepRes where
  | hallucinated : StepRes
  | invalid : StepRes
  | emit : VerifiedExtractionItem → StepRes
  deriving DecidableEq, Repr

/-- Outcome of one iteration of the verify_and_canonicalize loop:
whether the deduplicated counter was bumped, and how the candidate was
disposed of.  (`none` at the itemStep level models an uncaught
exception from the sentence lookup.) -/
structure StepOut where
  dedupHit : Bool
  res : StepRes
  deriving DecidableEq, Repr

/-- The body of the `for item in extraction.items` loop of
verify_and_canonicalize, for one item.  Mirrors steps 1-4b of the code;
the loop body touches no state besides the counters and the output
list, so it is a pure function of the item. -/
def itemStep (env : VerifyEnv) (tv : TextVerifier) (cmap : List (String × String))
    (item : ExtractionItem) : Option StepOut :=
  match verify_surface_form tv item.surface_form item.evidence.sentence_idx
      item.evidence.left_context item.evidence.right_context with
  | none => none
  | some false => some { dedupHit := false, res := StepRes.hallucinated }
  | some true =>
    let existing := dedup_lookup env item (resolve_canonical env cmap item)
    let canonical_form := final_canonical env cmap item
    let hit := existing.isSome
    if pyStrip canonical_form = "" then some { dedupHit := hit, res := StepRes.invalid }
    else if pyStrip item.surface_form = "" then some { dedupHit := hit, res := StepRes.invalid }
    else if item.type = "pattern" then
      match item.pattern_meta with
      | some pm =>
        if pm.grammar_rule = "" then some { dedupHit := hit, res := StepRes.invalid }
        else some { dedupHit := hit, res := StepRes.emit (mkVerifiedItem item canonical_form existing) }
      | none => some { dedupHit := hit, res := StepRes.emit (mkVerifiedItem item canonical_form existing) }
    else some { dedupHit := hit, res := StepRes.emit (mkVerifiedItem item canonical_form existing) }

/-- The loop of verify_and_canonicalize: threads the accumulated item
list (reversed) and the counters; a `none` outcome aborts the whole
call (the exception propagates). -/
def verifyLoop (env : VerifyEnv) (tv : TextVerifier) (cmap : List (String × String)) :
    List ExtractionItem → List VerifiedExtractionItem → VerificationStats →
    Option (List VerifiedExtractionItem × VerificationStats)
  | [], acc, stats => some (acc.reverse, stats)
  | item :: rest, acc, stats =>
    match itemStep env tv cmap item with
    | none => none
    | some s =>
      let stats1 := if s.dedupHit then
          { stats with deduplicated := stats.deduplicated + 1 } else stats
      match s.res with
      | StepRes.hallucinated =>
        verifyLoop env tv cmap rest acc { stats1 with hallucinated := stats1.hallucinated + 1 }
      | StepRes.invalid =>
        verifyLoop env tv cmap rest acc { stats1 with invalid := stats1.invalid + 1 }
      | StepRes.emit v =>
        verifyLoop env tv cmap rest (v :: acc) { stats1 with verified := stats1.verified + 1 }

/-- The TextVerifier built by verify_and_canonicalize from the
extraction's own sentences and the raw source text. -/
def pipelineTv (extraction : ExtractionOutput) (source_text : String) : TextVerifier :=
  TextVerifier.init source_text (extraction.sentences.map (fun s => s.text))

/-- The canonical_map of verify_and_canonicalize: the batched
lemmatization result when batching is enabled, empty otherwise. -/
def pipelineCmap (env : VerifyEnv) (extraction : ExtractionOutput) :
    List (String × String) :=
  if env.batch_canonicalization then batch_compute_canonical env.llm extraction.items
  else []

/-- The initial counter values of verify_and_canonicalize. -/
def initStats (extraction : ExtractionOutput) : VerificationStats :=
  { total := extraction.items.length, verified := 0, hallucinated := 0,
    deduplicated := 0, invalid := 0 }

/-- VerificationService.verify_and_canonicalize.  `none` models the
call raising (only possible source: the sentence lookup's IndexError on
a sentence index below -len(sentences)). -/
def verify_and_canonicalize (env : VerifyEnv) (extraction : ExtractionOutput)
    (source_text : String) : Option VerifiedExtractionOutput :=
  match verifyLoop env (pipelineTv extraction source_text) (pipelineCmap env extraction)
      extraction.items [] (initStats extraction) with
  | none => none
  | some (items, stats) =>
    some { sentences := extraction.sentences, items := items,
           edges := extraction.edges, verification_stats := stats }

/-! ## Extraction post-filter (extract_service.py lines 14-117) -/

/-- FILTER_LIST (extract_service.py). -/
def FILTER_LIST : List String :=
  ["und", "aber", "oder", "denn", "der", "die", "das", "ein", "eine", "einem",
   "einen", "einer"]

/-- KNOWN_PROPER_NOUNS (extract_service.py). -/
def KNOWN_PROPER_NOUNS : List String :=
  ["berlin", "münchen", "hamburg", "köln", "frankfurt", "stuttgart", "düsseldorf",
   "dortmund", "essen", "leipzig", "bremen", "dresden", "hannover", "nürnberg",
   "duisburg", "bochum",
   "deutschland", "österreich", "schweiz", "frankreich", "italien", "spanien",
   "england", "polen", "niederlande", "belgien", "dänemark", "schweden", "norwegen",
   "silke", "julia", "hans", "peter", "maria", "anna", "michael", "thomas",
   "christian", "sebastian", "alexander", "florian", "jan", "max", "martin",
   "david", "daniel", "laura", "sarah", "lisa", "katharina", "stefanie", "claudia",
   "nicole", "andrea"]

/-- is_likely_proper_noun (extract_service.py). -/
def is_likely_proper_noun (word : String) : Bool :=
  KNOWN_PROPER_NOUNS.contains (pyStrip (pyLower word))

/-- The valid structure types checked by validate_and_filter_items. -/
def VALID_STRUCTURE_TYPES : List String :=
  ["connector", "verb_prep", "sentence_structure", "idiom"]

/-- The per-item test of validate_and_filter_items: true when the item
is kept.  The `isinstance(slots, list)` check is always true in the
typed model, where `slots` is a list by construction. -/
def keep_item (item : ExtractionItem) : Bool :=
  if pyStrip item.canonical = "" then false
  else if pyStrip item.surface_form = "" then false
  else
    let canonical_stripped := pyStrip item.canonical
    let surface_stripped := pyStrip item.surface_form
    if item.type = "pattern" then
      match item.pattern_meta with
      | none => false
      | some pm =>
        if pyStrip pm.grammar_rule = "" then false
        else if !(VALID_STRUCTURE_TYPES.contains pm.structure_type) then false
        else true
    else
      if FILTER_LIST.contains (pyLower canonical_stripped) then false
      else if FILTER_LIST.contains (pyLower surface_stripped) then false
      else if is_likely_proper_noun canonical_stripped then false
      else if is_likely_proper_noun surface_stripped then false
      else true

/-- validate_and_filter_items (extract_service.py). -/
def validate_and_filter_items (items : List ExtractionItem) : List ExtractionItem :=
  items.filter keep_item

/-! ## ExtractService (extract_service.py lines 251-416) -/

/-- The generation environment of ExtractService: `gen text` models
`generate_json` on the extraction prompt built from `text`, followed by
the ExtractionOutput schema validation; `Except.error ()` models any
raised extraction error (invalid JSON, schema violation, connection or
timeout error). -/
structure ExtractEnv where
  gen : String → Except Unit ExtractionOutput

/-- ExtractService.extract_items: one generation call over `text`, then
the post-filter on the items. -/
def extract_items (env : ExtractEnv) (text : String) : Except Unit ExtractionOutput :=
  match env.gen text with
  | Except.error e => Except.error e
  | Except.ok extraction =>
    Except.ok { extraction with items := validate_and_filter_items extraction.items }

/-- The zero-width condition of the split regex
`(?<![A-Z])(?<=[.!?])\s+` on the character before a whitespace run.
Both lookbehinds inspect the same (single) preceding character, so the
`(?<![A-Z])` conjunct is vacuous: a character in `[.!?]` is never in
`[A-Z]`.  It is kept here exactly as written in the code. -/
def sentenceBoundaryBefore (prev : Char) : Bool :=
  (prev = '.' || prev = '!' || prev = '?') && !('A' ≤ prev && prev ≤ 'Z')

/-- The scanner of `re.split` for the pattern above: `prev` is the
character before the current one, `inSep` whether the scanner is inside
a matched whitespace separator, `acc` the current piece (reversed). -/
def reSplitGo : Char → Bool → List Char → List Char → List String
  | _, _, acc, [] => [String.mk acc.reverse]
  | _, true, acc, c :: rest =>
    if pyIsSpace c then reSplitGo c true acc rest
    else reSplitGo c false [c] rest
  | prev, false, acc, c :: rest =>
    if pyIsSpace c && sentenceBoundaryBefore prev then
      String.mk acc.reverse :: reSplitGo c true [] rest
    else reSplitGo c false (c :: acc) rest

/-- Python `re.split(r'(?<![A-Z])(?<=[.!?])\s+', s)`.  No match can
start at position 0 (the lookbehind needs a preceding character), so
the scan starts with a non-boundary previous character. -/
def pyReSplitSentences (s : String) : List String :=
  reSplitGo ' ' false [] s.data

/-- Fuelled body of `chunkJoin`.  Every step consumes at least the
head of the list, so fuel `l.length` is never exhausted; the fuel only
keeps the recursion structural (kernel-reducible). -/
def chunkJoinGo : Nat → Nat → List String → List String
  | _, _, [] => []
  | 0, _, _ :: _ => []
  | _ + 1, 0, _ :: _ => []
  | fuel + 1, bs + 1, s :: rest =>
    String.intercalate " " (s :: rest.take bs) :: chunkJoinGo fuel (bs + 1) (rest.drop bs)

/-- Grouping of sentences into batches of `batch_size`, joined with a
space: the `for i in range(0, len(sentences), batch_size)` loop.  A
zero `batch_size` raises in Python (range step 0); it is mapped to `[]`
here and never used. -/
def chunkJoin (batch_size : Nat) (l : List String) : List String :=
  chunkJoinGo l.length batch_size l

/-- split_into_sentence_batches (extract_service.py). -/
def split_into_sentence_batches (text : String) (batch_size : Nat) : List String :=
  let sentences := pyReSplitSentences (pyStrip text)
  let sentences := sentences.filter (fun s => pyStrip s ≠ "")
  if sentences.isEmpty then [text]
  else chunkJoin batch_size sentences

/-- Running totals of the merge loop of extract_items_batched. -/
structure MergeAcc where
  sentences : List ExtractionSentence
  items : List ExtractionItem
  edges : List ExtractionEdge
  successful : Nat
  failed : Nat
  offset : Int
  deriving Repr

/-- Is a settled batch result counted as failed?  An exception, or a
result with neither items nor sentences. -/
def batch_failed (r : Except Unit ExtractionOutput) : Bool :=
  match r with
  | Except.error _ => true
  | Except.ok out => out.items.isEmpty && out.sentences.isEmpty

/-- One iteration of the merge loop of extract_items_batched: failed
batches are skipped; successful ones have their sentence indices
shifted by the running offset and their parts appended. -/
def mergeStep (acc : MergeAcc) (r : Except Unit ExtractionOutput) : MergeAcc :=
  match r with
  | Except.error _ => { acc with failed := acc.failed + 1 }
  | Except.ok out =>
    if out.items.isEmpty && out.sentences.isEmpty then { acc with failed := acc.failed + 1 }
    else
      { sentences := acc.sentences ++ out.sentences.map (fun s => { s with idx := s.idx + acc.offset }),
        items := acc.items ++ out.items,
        edges := acc.edges ++ out.edges,
        successful := acc.successful + 1,
        failed := acc.failed,
        offset := acc.offset + out.sentences.length }

/-- The empty merge accumulator. -/
def emptyMergeAcc : MergeAcc :=
  { sentences := [], items := [], edges := [], successful := 0, failed := 0, offset := 0 }

/-- ExtractService.extract_items_batched.  The concurrent
`asyncio.gather(..., return_exceptions=True)` settles every batch
independently and keeps exceptions as values, so it is modelled by
mapping `extract_items` over the batches; the merge loop then counts
failures, and the fallback condition is the code's
`successful_batches < len(batches) / 2` (true division), i.e.
`2 * successful < len(batches)`. -/
def extract_items_batched (env : ExtractEnv) (text : String) (batch_size : Nat) :
    Except Unit ExtractionOutput :=
  let batches := split_into_sentence_batches text batch_size
  if batches.length = 1 then extract_items env (batches.headD text)
  else
    let results := batches.map (extract_items env)
    let acc := results.foldl mergeStep emptyMergeAcc
    if acc.successful * 2 < batches.length then extract_items env text
    else Except.ok { sentences := acc.sentences, items := acc.items, edges := acc.edges }

/-! ## Derived per-item views of the pipeline loop -/

/-- Does verification classify the item as hallucinated (step 1 returns
false)? -/
def fails_verification (tv : TextVerifier) (item : ExtractionItem) : Bool :=
  decide (verify_surface_form tv item.surface_form item.evidence.sentence_idx
    item.evidence.left_context item.evidence.right_context = some false)

/-- Was the loop body's outcome for this item the hallucinated drop? -/
def step_is_hall (env : VerifyEnv) (tv : TextVerifier) (cmap : List (String × String))
    (item : ExtractionItem) : Bool :=
  match itemStep env tv cmap item with
  | some { dedupHit := _, res := StepRes.hallucinated } => true
  | _ => false

/-- Was the loop body's outcome for this item the invalid drop? -/
def step_is_invalid (env : VerifyEnv) (tv : TextVerifier) (cmap : List (String × String))
    (item : ExtractionItem) : Bool :=
  match itemStep env tv cmap item with
  | some { dedupHit := _, res := StepRes.invalid } => true
  | _ => false

/-- Did the loop body bump the deduplicated counter for this item? -/
def step_dedup (env : VerifyEnv) (tv : TextVerifier) (cmap : List (String × String))
    (item : ExtractionItem) : Bool :=
  match itemStep env tv cmap item with
  | some s => s.dedupHit
  | none => false

/-- The VerifiedExtractionItem the loop body emits for this item, if
any. -/
def emitOf (env : VerifyEnv) (tv : TextVerifier) (cmap : List (String × String))
    (item : ExtractionItem) : Option VerifiedExtractionItem :=
  match itemStep env tv cmap item with
  | some { dedupHit := _, res := StepRes.emit v } => some v
  | _ => none

/-- The hallucination-candidate predicate of the spec: the case-folded
surface form occurs neither in the case-folded sentence at the claimed
sentence index (vacuously, when there is no such sentence) nor anywhere
in the case-folded source text. -/
def surface_unsupported (source_text : String) (sentences : List String)
    (surface : String) (idx : Int) : Bool :=
  (match pyListGet (sentences.map pyLower) idx with
   | some s => !(strIn (pyLower surface) s)
   | none => true) && !(strIn (pyLower surface) (pyLower source_text))

/-! ## Concrete inputs for counterexamples and witnesses -/

/-- An LLM environment whose canonicalizer is disabled and whose calls
all fail: canonicalization falls back to the surface form. -/
def llmOff : LlmEnv :=
  { use_llm := false, lemma_json := fun _ _ _ => none, batch_json := fun _ => none }

/-- A pipeline environment with deduplication and batching disabled and
an empty store. -/
def envPlain : VerifyEnv :=
  { llm := llmOff, enable_deduplication := false, batch_canonicalization := false, db := [] }

/-- Builder for a word-type candidate with empty gloss and contexts. -/
def mkWordItem (surface canonical : String) (idx : Int) (sentence : String) : ExtractionItem :=
  { type := "word", surface_form := surface, canonical := canonical, english_gloss := "",
    pos_hint := none, meta := [], pattern_meta := none, why_worth_learning := none,
    evidence := { sentence_idx := idx, sentence := sentence, left_context := "",
                  right_context := "" } }

/-- Fabricated candidate with a sentence index below -len(sentences). -/
def itemGhostNeg : ExtractionItem := mkWordItem "qqq" "qqq" (-2) "hund."

/-- Extraction holding only `itemGhostNeg`. -/
def extHallNeg : ExtractionOutput :=
  { sentences := [{ idx := 0, text := "hund." }], items := [itemGhostNeg], edges := [] }

/-- Fabricated candidate with an in-range sentence index. -/
def itemGhost0 : ExtractionItem := mkWordItem "qqq" "qqq" 0 "hund."

/-- Extraction holding only `itemGhost0`. -/
def extHall0 : ExtractionOutput :=
  { sentences := [{ idx := 0, text := "hund." }], items := [itemGhost0], edges := [] }

/-- Expected output for `extHall0`: the candidate dropped, hallucinated
counted once. -/
def outHall0 : VerifiedExtractionOutput :=
  { sentences := [{ idx := 0, text := "hund." }], items := [], edges := [],
    verification_stats := { total := 1, verified := 0, hallucinated := 1,
                            deduplicated := 0, invalid := 0 } }

/-- A one-sentence verifier used by the index-handling claims. -/
def tvHund : TextVerifier := TextVerifier.init "Der Hund bellt." ["Der Hund bellt."]

/-- The extraction result for the second sentence batch in the C2
scenario: one kept word item. -/
def itemCc : ExtractionItem := mkWordItem "Cc" "Cc" 0 "Cc dd."

/-- Successful raw result of the second batch. -/
def outCc : ExtractionOutput :=
  { sentences := [{ idx := 0, text := "Cc dd." }], items := [itemCc], edges := [] }

/-- Raw result of the single full-text extraction, distinguishable from
any partial merge. -/
def outFull : ExtractionOutput :=
  { sentences := [{ idx := 0, text := "Aa bb." }, { idx := 1, text := "Cc dd." }],
    items := [], edges := [] }

/-- Generation environment where the first sentence batch fails, the
second succeeds, and the full text succeeds with `outFull`. -/
def envHalfFail : ExtractEnv :=
  { gen := fun t =>
      if t = "Cc dd." then Except.ok outCc
      else if t = "Aa bb. Cc dd." then Except.ok outFull
      else Except.error () }

/-- The partial merge the code returns in the C2 scenario. -/
def mergedHalf : ExtractionOutput :=
  { sentences := [{ idx := 0, text := "Cc dd." }], items := [itemCc], edges := [] }

/-- Generation environment where every sentence batch fails and only
the full text succeeds. -/
def envAllFail : ExtractEnv :=
  { gen := fun t => if t = "Aa bb. Cc dd." then Except.ok outFull else Except.error () }

/-- A store holding one word item with canonical form hund. -/
def dbExact : List Item := [{ id := 2, type := "word", canonical_form := "hund", created_at := 5 }]

/-- A stored word item with canonical form hund for the fuzzy-match
witness. -/
def itemFuzzy2 : Item := { id := 3, type := "word", canonical_form := "hund", created_at := 9 }

/-- A store holding only `itemFuzzy2`. -/
def dbFuzzy2 : List Item := [itemFuzzy2]

/-- LLM environment whose batched lemmatization succeeds but returns a
blank lemma for the surface form Hunde. -/
def llmBlankBatch : LlmEnv :=
  { use_llm := true, lemma_json := fun _ _ _ => none,
    batch_json := fun _ => some [("Hunde", "")] }

/-- A word item with surface form Hunde. -/
def itemHunde : ExtractionItem := mkWordItem "Hunde" "Hund" 0 "hunde."

/-- A word candidate whose surface form is a single space: it passes
substring verification against any source containing a space, then
fails the blank check. -/
def itemBlankSurface : ExtractionItem := mkWordItem " " " " 0 "ein hund."

/-- Extraction holding only `itemBlankSurface`. -/
def extBlank : ExtractionOutput :=
  { sentences := [{ idx := 0, text := "ein hund." }], items := [itemBlankSurface], edges := [] }

/-- Expected output for `extBlank`: the candidate dropped as invalid. -/
def outBlank : VerifiedExtractionOutput :=
  { sentences := [{ idx := 0, text := "ein hund." }], items := [], edges := [],
    verification_stats := { total := 1, verified := 0, hallucinated := 0,
                            deduplicated := 0, invalid := 1 } }

/-- A well-formed word candidate that is verified and emitted. -/
def itemHundOk : ExtractionItem := mkWordItem "Hund" "Hund" 0 "Der Hund bellt."

/-- Extraction holding only `itemHundOk`. -/
def extEmit : ExtractionOutput :=
  { sentences := [{ idx := 0, text := "Der Hund bellt." }], items := [itemHundOk], edges := [] }

/-- The emitted item for `extEmit`. -/
def vHundOk : VerifiedExtractionItem := mkVerifiedItem itemHundOk "Hund" none

/-- Expected output for `extEmit`. -/
def outEmit : VerifiedExtractionOutput :=
  { sentences := [{ idx := 0, text := "Der Hund bellt." }], items := [vHundOk], edges := [],
    verification_stats := { total := 1, verified := 1, hallucinated := 0,
                            deduplicated := 0, invalid := 0 } }

/-- Pattern metadata with an empty grammar rule. -/
def pmNoRule : PatternMeta :=
  { structure_type := "verb_prep", slots := [], grammar_rule := "" }

/-- A pattern candidate that deduplicates against the store and is then
dropped by the pattern-metadata validation. -/
def itemPatternDedup : ExtractionItem :=
  { type := "pattern", surface_form := "hund", canonical := "hund", english_gloss := "",
    pos_hint := none, meta := [], pattern_meta := some pmNoRule, why_worth_learning := none,
    evidence := { sentence_idx := 0, sentence := "hund.", left_context := "",
                  right_context := "" } }

/-- A store holding a pattern item with canonical form hund. -/
def dbPatternHund : List Item :=
  [{ id := 7, type := "pattern", canonical_form := "hund", created_at := 3 }]

/-- Environment with deduplication enabled over `dbPatternHund`. -/
def envDedupPattern : VerifyEnv :=
  { llm := llmOff, enable_deduplication := true, batch_canonicalization := false,
    db := dbPatternHund }

/-- Extraction holding only `itemPatternDedup`. -/
def extPatternDedup : ExtractionOutput :=
  { sentences := [{ idx := 0, text := "hund." }], items := [itemPatternDedup], edges := [] }

/-- Expected output for `extPatternDedup`: deduplicated once, then
dropped as invalid; no item emitted. -/
def outPatternDedup : VerifiedExtractionOutput :=
  { sentences := [{ idx := 0, text := "hund." }], items := [], edges := [],
    verification_stats := { total := 1, verified := 0, hallucinated := 0,
                            deduplicated := 1, invalid := 1 } }

/-- Valid pattern metadata. -/
def pmConnector : PatternMeta :=
  { structure_type := "connector", slots := ["X"], grammar_rule := "rule" }

/-- A pattern candidate whose surface and canonical forms are the
stop-list word und, with valid pattern metadata. -/
def itemUndPattern : ExtractionItem :=
  { type := "pattern", surface_form := "und", canonical := "und", english_gloss := "",
    pos_hint := none, meta := [], pattern_meta := some pmConnector,
    why_worth_learning := none,
    evidence := { sentence_idx := 0, sentence := "", left_context := "",
                  right_context := "" } }

/-- Generation environment returning only `itemUndPattern`. -/
def envUndPattern : ExtractEnv :=
  { gen := fun _ => Except.ok { sentences := [], items := [itemUndPattern], edges := [] } }

/-- A word candidate whose forms are the stop-list word und. -/
def itemUndWord : ExtractionItem := mkWordItem "und" "und" 0 ""

/-- A raw extraction holding a stop-list word item and a kept item. -/
def rawMixed : ExtractionOutput :=
  { sentences := [], items := [itemUndWord, itemHundOk], edges := [] }

/-- Generation environment returning `rawMixed` for every text. -/
def envMixed : ExtractEnv :=
  { gen := fun _ => Except.ok rawMixed }

/-- What extract_items returns for `envMixed`: the stop-list word item
filtered out, the kept item retained. -/
def outMixed : ExtractionOutput :=
  { sentences := [], items := [itemHundOk], edges := [] }

/-! # Theorems -/

/-- Fold invariant: a predicate preserved by every step holds of the
result. -/
theorem foldl_preserves {α β : Type} (P : β → Prop) (f : β → α → β) :
    ∀ (l : List α) (init : β), P init → (∀ b a, a ∈ l → P b → P (f b a)) →
      P (l.foldl f init) := by
  intro l
  induction l with
  | nil => intro init h _; exact h
  | cons x xs ih =>
    intro init h hf
    exact ih (f init x) (hf init x (by simp) h)
      (fun b a ha hb => hf b a (by simp [ha]) hb)

/-- Membership in the search rectangle gives the range bounds. -/
theorem mem_rectPairs {alo ahi blo bhi : Nat} {p : Nat × Nat}
    (h : p ∈ rectPairs alo ahi blo bhi) :
    alo ≤ p.1 ∧ p.1 < ahi ∧ blo ≤ p.2 ∧ p.2 < bhi := by
  rcases List.mem_flatMap.1 h with ⟨i, hi, hp⟩
  rcases List.mem_map.1 hp with ⟨j, hj, rfl⟩
  have h1 := List.mem_range'_1.1 hi
  have h2 := List.mem_range'_1.1 hj
  refine ⟨?_, ?_, ?_, ?_⟩ <;> simp only [] <;> omega

/-- When find_longest_match reports a nonzero block, the block's start
lies inside the search rectangle: difflib's `k != 0` test and the
guarded test of `matchingBlocksGo` agree. -/
theorem find_longest_match_bounds (a b : List Char) (alo ahi blo bhi : Nat) :
    0 < (find_longest_match a b alo ahi blo bhi).2.2 →
      alo ≤ (find_longest_match a b alo ahi blo bhi).1 ∧
      (find_longest_match a b alo ahi blo bhi).1 < ahi ∧
      blo ≤ (find_longest_match a b alo ahi blo bhi).2.1 ∧
      (find_longest_match a b alo ahi blo bhi).2.1 < bhi := by
  refine foldl_preserves
    (fun best : Nat × Nat × Nat =>
      0 < best.2.2 → alo ≤ best.1 ∧ best.1 < ahi ∧ blo ≤ best.2.1 ∧ best.2.1 < bhi)
    (betterBlock a b ahi bhi) (rectPairs alo ahi blo bhi) (alo, blo, 0)
    (by intro h; exact absurd h (by simp)) ?_
  intro best p hp hbest
  unfold betterBlock
  by_cases hk : best.2.2 < matchLenAt a b ahi bhi p.1 p.2
  · simpa [hk] using fun _ => mem_rectPairs hp
  · simpa [hk] using hbest

/-- A degenerate range has no matching blocks, for any fuel. -/
theorem matchingBlocksGo_zero_range (a b : List Char) (fuel alo ahi blo bhi : Nat)
    (h : ahi ≤ alo) : matchingBlocksGo a b fuel alo ahi blo bhi = 0 := by
  cases fuel with
  | zero => rfl
  | succ n =>
    simp only [matchingBlocksGo]
    rw [if_neg]
    rintro ⟨-, h1, h2, -, -⟩
    omega

/-- The fuel of `matchingBlocksGo` is irrelevant as soon as it covers
the total range size. -/
theorem matchingBlocksGo_congr (a b : List Char) :
    ∀ (n m alo ahi blo bhi : Nat),
      (ahi - alo) + (bhi - blo) ≤ n → (ahi - alo) + (bhi - blo) ≤ m →
      matchingBlocksGo a b n alo ahi blo bhi = matchingBlocksGo a b m alo ahi blo bhi := by
  intro n
  induction n with
  | zero =>
    intro m alo ahi blo bhi hn hm
    have hz : ahi ≤ alo := by omega
    rw [matchingBlocksGo_zero_range a b 0 alo ahi blo bhi hz,
      matchingBlocksGo_zero_range a b m alo ahi blo bhi hz]
  | succ n ih =>
    intro m alo ahi blo bhi hn hm
    cases m with
    | zero =>
      have hz : ahi ≤ alo := by omega
      rw [matchingBlocksGo_zero_range a b (n + 1) alo ahi blo bhi hz,
        matchingBlocksGo_zero_range a b 0 alo ahi blo bhi hz]
    | succ m =>
      simp only [matchingBlocksGo]
      by_cases hc : 0 < (find_longest_match a b alo ahi blo bhi).2.2 ∧
          alo ≤ (find_longest_match a b alo ahi blo bhi).1 ∧
          (find_longest_match a b alo ahi blo bhi).1 < ahi ∧
          blo ≤ (find_longest_match a b alo ahi blo bhi).2.1 ∧
          (find_longest_match a b alo ahi blo bhi).2.1 < bhi
      · rw [if_pos hc, if_pos hc]
        obtain ⟨hk, h1, h2, h3, h4⟩ := hc
        rw [ih m alo (find_longest_match a b alo ahi blo bhi).1 blo
            (find_longest_match a b alo ahi blo bhi).2.1 (by omega) (by omega),
          ih m ((find_longest_match a b alo ahi blo bhi).1
              + (find_longest_match a b alo ahi blo bhi).2.2) ahi
            ((find_longest_match a b alo ahi blo bhi).2.1
              + (find_longest_match a b alo ahi blo bhi).2.2) bhi (by omega) (by omega)]
      · rw [if_neg hc, if_neg hc]

/-- The defining equation of difflib's recursive matching-block total:
recurse left and right of the longest match whenever its size is
nonzero.  This shows the guarded, fuelled recursion of
`matchingBlocksGo` computes exactly the difflib recursion. -/
theorem matching_blocks_total_eq (a b : List Char) (alo ahi blo bhi : Nat) :
    matching_blocks_total a b alo ahi blo bhi =
      if 0 < (find_longest_match a b alo ahi blo bhi).2.2 then
        (find_longest_match a b alo ahi blo bhi).2.2
          + matching_blocks_total a b alo (find_longest_match a b alo ahi blo bhi).1
              blo (find_longest_match a b alo ahi blo bhi).2.1
          + matching_blocks_total a b
              ((find_longest_match a b alo ahi blo bhi).1
                + (find_longest_match a b alo ahi blo bhi).2.2) ahi
              ((find_longest_match a b alo ahi blo bhi).2.1
                + (find_longest_match a b alo ahi blo bhi).2.2) bhi
      else 0 := by
  unfold matching_blocks_total
  by_cases hk : 0 < (find_longest_match a b alo ahi blo bhi).2.2
  · obtain ⟨h1, h2, h3, h4⟩ := find_longest_match_bounds a b alo ahi blo bhi hk
    rw [if_pos hk]
    have hsum : (ahi - alo) + (bhi - blo) = ((ahi - alo) + (bhi - blo) - 1) + 1 := by omega
    rw [hsum]
    simp only [matchingBlocksGo]
    rw [if_pos ⟨hk, h1, h2, h3, h4⟩]
    rw [matchingBlocksGo_congr a b ((ahi - alo) + (bhi - blo) - 1)
        (((find_longest_match a b alo ahi blo bhi).1 - alo)
          + ((find_longest_match a b alo ahi blo bhi).2.1 - blo))
        alo (find_longest_match a b alo ahi blo bhi).1 blo
        (find_longest_match a b alo ahi blo bhi).2.1 (by omega) (by omega),
      matchingBlocksGo_congr a b ((ahi - alo) + (bhi - blo) - 1)
        ((ahi - ((find_longest_match a b alo ahi blo bhi).1
            + (find_longest_match a b alo ahi blo bhi).2.2))
          + (bhi - ((find_longest_match a b alo ahi blo bhi).2.1
            + (find_longest_match a b alo ahi blo bhi).2.2)))
        ((find_longest_match a b alo ahi blo bhi).1
          + (find_longest_match a b alo ahi blo bhi).2.2) ahi
        ((find_longest_match a b alo ahi blo bhi).2.1
          + (find_longest_match a b alo ahi blo bhi).2.2) bhi (by omega) (by omega)]
  · rw [if_neg hk]
    cases hs : (ahi - alo) + (bhi - blo) with
    | zero => rfl
    | succ s =>
      simp only [matchingBlocksGo]
      rw [if_neg]
      rintro ⟨h, -⟩
      exact hk h

/-- If the loop body produced an outcome, the surface verification did
not raise. -/
theorem itemStep_isSome_verify (env : VerifyEnv) (tv : TextVerifier)
    (cmap : List (String × String)) (item : ExtractionItem)
    (h : (itemStep env tv cmap item).isSome = true) :
    verify_surface_form tv item.surface_form item.evidence.sentence_idx
      item.evidence.left_context item.evidence.right_context ≠ none := by
  intro hv
  unfold itemStep at h
  rw [hv] at h
  simp at h

/-- If verification raises, the loop body raises. -/
theorem itemStep_of_verify_none (env : VerifyEnv) (tv : TextVerifier)
    (cmap : List (String × String)) (item : ExtractionItem)
    (hv : verify_surface_form tv item.surface_form item.evidence.sentence_idx
      item.evidence.left_context item.evidence.right_context = none) :
    itemStep env tv cmap item = none := by
  unfold itemStep
  rw [hv]

/-- If verification returns false, the loop body drops the item as
hallucinated (and does not bump the deduplicated counter). -/
theorem itemStep_of_verify_false (env : VerifyEnv) (tv : TextVerifier)
    (cmap : List (String × String)) (item : ExtractionItem)
    (hv : verify_surface_form tv item.surface_form item.evidence.sentence_idx
      item.evidence.left_context item.evidence.right_context = some false) :
    itemStep env tv cmap item = some { dedupHit := false, res := StepRes.hallucinated } := by
  unfold itemStep
  rw [hv]

/-- If verification returns true, the loop body either drops the item
as invalid or emits exactly the constructed VerifiedExtractionItem; an
emitted item passed both blank checks. -/
theorem itemStep_of_verify_true (env : VerifyEnv) (tv : TextVerifier)
    (cmap : List (String × String)) (item : ExtractionItem) (s : StepOut)
    (hv : verify_surface_form tv item.surface_form item.evidence.sentence_idx
      item.evidence.left_context item.evidence.right_context = some true)
    (h : itemStep env tv cmap item = some s) :
    s.dedupHit = (dedup_lookup env item (resolve_canonical env cmap item)).isSome ∧
      (s.res = StepRes.invalid ∨
        (s.res = StepRes.emit (mkVerifiedItem item (final_canonical env cmap item)
            (dedup_lookup env item (resolve_canonical env cmap item))) ∧
          pyStrip (final_canonical env cmap item) ≠ "" ∧
          pyStrip item.surface_form ≠ "")) := by
  unfold itemStep at h
  rw [hv] at h
  dsimp only at h
  repeat' split at h
  all_goals rw [Option.some.injEq] at h
  all_goals subst h
  all_goals refine ⟨rfl, ?_⟩
  all_goals first
    | exact Or.inl rfl
    | exact Or.inr ⟨rfl, by assumption, by assumption⟩

/-- The loop body classifies an item as hallucinated exactly when
surface verification returns false. -/
theorem step_is_hall_iff (env : VerifyEnv) (tv : TextVerifier)
    (cmap : List (String × String)) (item : ExtractionItem) :
    step_is_hall env tv cmap item = true ↔
      verify_surface_form tv item.surface_form item.evidence.sentence_idx
        item.evidence.left_context item.evidence.right_context = some false := by
  unfold step_is_hall
  cases hv : verify_surface_form tv item.surface_form item.evidence.sentence_idx
      item.evidence.left_context item.evidence.right_context with
  | none => rw [itemStep_of_verify_none env tv cmap item hv]; simp
  | some b =>
    cases b with
    | false => rw [itemStep_of_verify_false env tv cmap item hv]; simp
    | true =>
      cases hs : itemStep env tv cmap item with
      | none => simp
      | some s =>
        obtain ⟨d, r⟩ := s
        obtain ⟨-, hres⟩ := itemStep_of_verify_true env tv cmap item ⟨d, r⟩ hv hs
        rcases hres with h1 | ⟨h1, -, -⟩ <;> simp only at h1 <;> subst h1 <;> simp

/-- Everything the emission of a VerifiedExtractionItem guarantees:
verification returned true, the item is the constructed one, and both
blank checks passed. -/
theorem emitOf_eq_some (env : VerifyEnv) (tv : TextVerifier)
    (cmap : List (String × String)) (item : ExtractionItem) (v : VerifiedExtractionItem)
    (h : emitOf env tv cmap item = some v) :
    verify_surface_form tv item.surface_form item.evidence.sentence_idx
        item.evidence.left_context item.evidence.right_context = some true ∧
      v = mkVerifiedItem item (final_canonical env cmap item)
        (dedup_lookup env item (resolve_canonical env cmap item)) ∧
      pyStrip (final_canonical env cmap item) ≠ "" ∧
      pyStrip item.surface_form ≠ "" := by
  unfold emitOf at h
  cases hs : itemStep env tv cmap item with
  | none => rw [hs] at h; cases h
  | some s =>
    rw [hs] at h
    obtain ⟨d, r⟩ := s
    cases r with
    | hallucinated => cases h
    | invalid => cases h
    | emit w =>
      rw [Option.some.injEq] at h
      subst h
      cases hv : verify_surface_form tv item.surface_form item.evidence.sentence_idx
          item.evidence.left_context item.evidence.right_context with
      | none =>
        rw [itemStep_of_verify_none env tv cmap item hv] at hs
        cases hs
      | some b =>
        cases b with
        | false =>
          rw [itemStep_of_verify_false env tv cmap item hv] at hs
          simp at hs
        | true =>
          obtain ⟨-, hres⟩ :=
            itemStep_of_verify_true env tv cmap item ⟨d, StepRes.emit w⟩ hv hs
          rcases hres with h1 | ⟨h1, hb1, hb2⟩
          · simp at h1
          · simp only [StepRes.emit.injEq] at h1
            exact ⟨rfl, h1, hb1, hb2⟩

/-- A blank final canonical form or blank surface form is never
emitted: past a successful verification it is dropped as invalid. -/
theorem itemStep_blank_invalid (env : VerifyEnv) (tv : TextVerifier)
    (cmap : List (String × String)) (item : ExtractionItem) (s : StepOut)
    (hs : itemStep env tv cmap item = some s)
    (hb : pyStrip (final_canonical env cmap item) = "" ∨ pyStrip item.surface_form = "") :
    s.res = StepRes.invalid ∨ s.res = StepRes.hallucinated := by
  cases hv : verify_surface_form tv item.surface_form item.evidence.sentence_idx
      item.evidence.left_context item.evidence.right_context with
  | none =>
    rw [itemStep_of_verify_none env tv cmap item hv] at hs
    cases hs
  | some b =>
    cases b with
    | false =>
      rw [itemStep_of_verify_false env tv cmap item hv] at hs
      rw [Option.some.injEq] at hs
      subst hs
      exact Or.inr rfl
    | true =>
      obtain ⟨-, hres⟩ := itemStep_of_verify_true env tv cmap item s hv hs
      rcases hres with h1 | ⟨-, hb1, hb2⟩
      · exact Or.inl h1
      · rcases hb with hb | hb
        · exact absurd hb hb1
        · exact absurd hb hb2

/-- Full characterization of the verify_and_canonicalize loop: items
emitted in input order appended to the accumulator, and every counter a
count over the input items. -/
theorem verifyLoop_spec (env : VerifyEnv) (tv : TextVerifier)
    (cmap : List (String × String)) :
    ∀ (items : List ExtractionItem) (acc : List VerifiedExtractionItem)
      (stats : VerificationStats) (l : List VerifiedExtractionItem)
      (st : VerificationStats),
      verifyLoop env tv cmap items acc stats = some (l, st) →
      l = acc.reverse ++ items.filterMap (emitOf env tv cmap) ∧
      st.total = stats.total ∧
      st.hallucinated = stats.hallucinated + items.countP (step_is_hall env tv cmap) ∧
      st.invalid = stats.invalid + items.countP (step_is_invalid env tv cmap) ∧
      st.verified = stats.verified
        + items.countP (fun it => (emitOf env tv cmap it).isSome) ∧
      st.deduplicated = stats.deduplicated + items.countP (step_dedup env tv cmap) ∧
      ∀ it ∈ items, (itemStep env tv cmap it).isSome := by
  intro items
  induction items with
  | nil =>
    intro acc stats l st h
    unfold verifyLoop at h
    rw [Option.some.injEq, Prod.mk.injEq] at h
    obtain ⟨h1, h2⟩ := h
    subst h1
    subst h2
    simp
  | cons item rest ih =>
    intro acc stats l st h
    unfold verifyLoop at h
    cases hs : itemStep env tv cmap item with
    | none => rw [hs] at h; cases h
    | some s =>
      rw [hs] at h
      obtain ⟨d, r⟩ := s
      dsimp only at h
      cases r with
      | hallucinated =>
        obtain ⟨e1, e2, e3, e4, e5, e6, e7⟩ := ih acc _ l st h
        refine ⟨?_, ?_, ?_, ?_, ?_, ?_, ?_⟩
        · rw [e1]
          simp [List.filterMap_cons, emitOf, hs]
        · rw [e2]; cases d <;> simp
        · rw [e3]
          rw [List.countP_cons]
          have hp : step_is_hall env tv cmap item = true := by
            unfold step_is_hall; rw [hs]
          rw [hp]
          cases d <;> simp <;> omega
        · rw [e4]
          rw [List.countP_cons]
          have hp : step_is_invalid env tv cmap item = false := by
            unfold step_is_invalid; rw [hs]
          rw [hp]
          cases d <;> simp
        · rw [e5]
          rw [List.countP_cons]
          have hp : (emitOf env tv cmap item).isSome = false := by
            unfold emitOf; rw [hs]; rfl
          rw [hp]
          cases d <;> simp
        · rw [e6]
          rw [List.countP_cons]
          have hp : step_dedup env tv cmap item = d := by
            unfold step_dedup; rw [hs]
          rw [hp]
          cases d <;> simp <;> omega
        · intro it hit
          rcases List.mem_cons.1 hit with h1 | h1
          · subst h1; rw [hs]; rfl
          · exact e7 it h1
      | invalid =>
        obtain ⟨e1, e2, e3, e4, e5, e6, e7⟩ := ih acc _ l st h
        refine ⟨?_, ?_, ?_, ?_, ?_, ?_, ?_⟩
        · rw [e1]
          simp [List.filterMap_cons, emitOf, hs]
        · rw [e2]; cases d <;> simp
        · rw [e3]
          rw [List.countP_cons]
          have hp : step_is_hall env tv cmap item = false := by
            unfold step_is_hall; rw [hs]
          rw [hp]
          cases d <;> simp
        · rw [e4]
          rw [List.countP_cons]
          have hp : step_is_invalid env tv cmap item = true := by
            unfold step_is_invalid; rw [hs]
          rw [hp]
          cases d <;> simp <;> omega
        · rw [e5]
          rw [List.countP_cons]
          have hp : (emitOf env tv cmap item).isSome = false := by
            unfold emitOf; rw [hs]; rfl
          rw [hp]
          cases d <;> simp
        · rw [e6]
          rw [List.countP_cons]
          have hp : step_dedup env tv cmap item = d := by
            unfold step_dedup; rw [hs]
          rw [hp]
          cases d <;> simp <;> omega
        · intro it hit
          rcases List.mem_cons.1 hit with h1 | h1
          · subst h1; rw [hs]; rfl
          · exact e7 it h1
      | emit v =>
        obtain ⟨e1, e2, e3, e4, e5, e6, e7⟩ := ih (v :: acc) _ l st h
        refine ⟨?_, ?_, ?_, ?_, ?_, ?_, ?_⟩
        · rw [e1]
          have hp : emitOf env tv cmap item = some v := by
            unfold emitOf; rw [hs]
          simp [List.filterMap_cons, hp]
        · rw [e2]; cases d <;> simp
        · rw [e3]
          rw [List.countP_cons]
          have hp : step_is_hall env tv cmap item = false := by
            unfold step_is_hall; rw [hs]
          rw [hp]
          cases d <;> simp
        · rw [e4]
          rw [List.countP_cons]
          have hp : step_is_invalid env tv cmap item = false := by
            unfold step_is_invalid; rw [hs]
          rw [hp]
          cases d <;> simp
        · rw [e5]
          rw [List.countP_cons]
          have hp : (emitOf env tv cmap item).isSome = true := by
            unfold emitOf; rw [hs]; rfl
          rw [hp]
          cases d <;> simp <;> omega
        · rw [e6]
          rw [List.countP_cons]
          have hp : step_dedup env tv cmap item = d := by
            unfold step_dedup; rw [hs]
          rw [hp]
          cases d <;> simp <;> omega
        · intro it hit
          rcases List.mem_cons.1 hit with h1 | h1
          · subst h1; rw [hs]; rfl
          · exact e7 it h1

/-- Every input item falls into exactly one of the three disposal
classes, so the class counts partition the input. -/
theorem step_partition (env : VerifyEnv) (tv : TextVerifier)
    (cmap : List (String × String)) :
    ∀ items : List ExtractionItem,
      (∀ it ∈ items, (itemStep env tv cmap it).isSome) →
      items.countP (step_is_hall env tv cmap) + items.countP (step_is_invalid env tv cmap)
        + items.countP (fun it => (emitOf env tv cmap it).isSome) = items.length := by
  intro items
  induction items with
  | nil => intro _; simp
  | cons item rest ih =>
    intro h
    have hitem := h item (List.mem_cons_self item rest)
    have hrest := ih (fun it hit => h it (List.mem_cons_of_mem item hit))
    cases hs : itemStep env tv cmap item with
    | none => rw [hs] at hitem; cases hitem
    | some s =>
      obtain ⟨d, r⟩ := s
      cases r with
      | hallucinated =>
        have h1 : step_is_hall env tv cmap item = true := by
          unfold step_is_hall; rw [hs]
        have h2 : step_is_invalid env tv cmap item = false := by
          unfold step_is_invalid; rw [hs]
        have h3 : (emitOf env tv cmap item).isSome = false := by
          unfold emitOf; rw [hs]; rfl
        simp only [List.countP_cons, List.length_cons, h1, h2, h3]
        simp
        omega
      | invalid =>
        have h1 : step_is_hall env tv cmap item = false := by
          unfold step_is_hall; rw [hs]
        have h2 : step_is_invalid env tv cmap item = true := by
          unfold step_is_invalid; rw [hs]
        have h3 : (emitOf env tv cmap item).isSome = false := by
          unfold emitOf; rw [hs]; rfl
        simp only [List.countP_cons, List.length_cons, h1, h2, h3]
        simp
        omega
      | emit v =>
        have h1 : step_is_hall env tv cmap item = false := by
          unfold step_is_hall; rw [hs]
        have h2 : step_is_invalid env tv cmap item = false := by
          unfold step_is_invalid; rw [hs]
        have h3 : (emitOf env tv cmap item).isSome = true := by
          unfold emitOf; rw [hs]; rfl
        simp only [List.countP_cons, List.length_cons, h1, h2, h3]
        simp
        omega

/-- Unpacking a successful verify_and_canonicalize call through the
loop characterization. -/
theorem verify_and_canonicalize_elim (env : VerifyEnv) (extraction : ExtractionOutput)
    (source_text : String) (out : VerifiedExtractionOutput)
    (h : verify_and_canonicalize env extraction source_text = some out) :
    out.sentences = extraction.sentences ∧
    out.edges = extraction.edges ∧
    out.items = extraction.items.filterMap
      (emitOf env (pipelineTv extraction source_text) (pipelineCmap env extraction)) ∧
    out.verification_stats.total = extraction.items.length ∧
    out.verification_stats.hallucinated = extraction.items.countP
      (step_is_hall env (pipelineTv extraction source_text) (pipelineCmap env extraction)) ∧
    out.verification_stats.invalid = extraction.items.countP
      (step_is_invalid env (pipelineTv extraction source_text) (pipelineCmap env extraction)) ∧
    out.verification_stats.verified = extraction.items.countP
      (fun it => (emitOf env (pipelineTv extraction source_text)
        (pipelineCmap env extraction) it).isSome) ∧
    out.verification_stats.deduplicated = extraction.items.countP
      (step_dedup env (pipelineTv extraction source_text) (pipelineCmap env extraction)) ∧
    ∀ it ∈ extraction.items,
      (itemStep env (pipelineTv extraction source_text)
        (pipelineCmap env extraction) it).isSome := by
  unfold verify_and_canonicalize at h
  cases hl : verifyLoop env (pipelineTv extraction source_text)
      (pipelineCmap env extraction) extraction.items [] (initStats extraction) with
  | none => rw [hl] at h; cases h
  | some p =>
    obtain ⟨l, st⟩ := p
    rw [hl] at h
    rw [Option.some.injEq] at h
    subst h
    obtain ⟨e1, e2, e3, e4, e5, e6, e7⟩ :=
      verifyLoop_spec env (pipelineTv extraction source_text)
        (pipelineCmap env extraction) extraction.items [] (initStats extraction) l st hl
    refine ⟨rfl, rfl, ?_, ?_, ?_, ?_, ?_, ?_, e7⟩
    · simpa using e1
    · simpa [initStats] using e2
    · simpa [initStats] using e3
    · simpa [initStats] using e4
    · simpa [initStats] using e5
    · simpa [initStats] using e6

/-- C8: every candidate lands in exactly one of the three buckets, so
the counters add up to the input size. -/
theorem C8_stats_partition :
    ∀ (env : VerifyEnv) (extraction : ExtractionOutput) (source_text : String)
      (out : VerifiedExtractionOutput),
      verify_and_canonicalize env extraction source_text = some out →
      out.verification_stats.total = extraction.items.length ∧
      out.verification_stats.total = out.verification_stats.verified
        + out.verification_stats.hallucinated + out.verification_stats.invalid := by
  intro env extraction source_text out h
  obtain ⟨-, -, -, e4, e5, e6, e7, -, e9⟩ :=
    verify_and_canonicalize_elim env extraction source_text out h
  have hp := step_partition env (pipelineTv extraction source_text)
    (pipelineCmap env extraction) extraction.items e9
  refine ⟨e4, ?_⟩
  rw [e4, e5, e6, e7]
  omega

/-- Witness for C8 on a concrete one-item extraction. -/
theorem C8_stats_partition_witness :
    outEmit.verification_stats.total = extEmit.items.length ∧
    outEmit.verification_stats.total = outEmit.verification_stats.verified
      + outEmit.verification_stats.hallucinated + outEmit.verification_stats.invalid :=
  C8_stats_partition envPlain extEmit "Der Hund bellt." outEmit (by decide)

/-- C6: every emitted VerifiedItem carries a canonical form and a
surface form that are non-empty after trimming; a candidate whose
post-deduplication canonical form or surface form is blank is never
emitted — past a successful verification it is dropped as invalid, and
the invalid counter counts exactly the invalid drops. -/
theorem C6_emitted_nonblank :
    ∀ (env : VerifyEnv) (extraction : ExtractionOutput) (source_text : String)
      (out : VerifiedExtractionOutput),
      verify_and_canonicalize env extraction source_text = some out →
      (∀ v ∈ out.items, pyStrip v.canonical_form ≠ "" ∧ pyStrip v.surface_form ≠ "") ∧
      (∀ it ∈ extraction.items, ∀ s,
        itemStep env (pipelineTv extraction source_text)
          (pipelineCmap env extraction) it = some s →
        (pyStrip (final_canonical env (pipelineCmap env extraction) it) = "" ∨
          pyStrip it.surface_form = "") →
        s.res = StepRes.invalid ∨ s.res = StepRes.hallucinated) ∧
      out.verification_stats.invalid = extraction.items.countP
        (step_is_invalid env (pipelineTv extraction source_text)
          (pipelineCmap env extraction)) := by
  intro env extraction source_text out h
  obtain ⟨-, -, e3, -, -, e6, -, -, -⟩ :=
    verify_and_canonicalize_elim env extraction source_text out h
  refine ⟨?_, ?_, e6⟩
  · intro v hv
    rw [e3] at hv
    obtain ⟨it, -, hemit⟩ := List.mem_filterMap.1 hv
    obtain ⟨-, hveq, hc, hs⟩ := emitOf_eq_some env (pipelineTv extraction source_text)
      (pipelineCmap env extraction) it v hemit
    subst hveq
    exact ⟨hc, hs⟩
  · intro it _ s hs hb
    exact itemStep_blank_invalid env (pipelineTv extraction source_text)
      (pipelineCmap env extraction) it s hs hb

/-- Witness for C6: the emitted item of the concrete run is non-blank. -/
theorem C6_emitted_nonblank_witness :
    pyStrip vHundOk.canonical_form ≠ "" ∧ pyStrip vHundOk.surface_form ≠ "" :=
  (C6_emitted_nonblank envPlain extEmit "Der Hund bellt." outEmit (by decide)).1
    vHundOk (by decide)

/-- A hallucination candidate in the sense of the spec can never pass
surface verification. -/
theorem unsupported_not_verified (source_text : String) (sentences : List String)
    (surface : String) (idx : Int) (l r : String)
    (hu : surface_unsupported source_text sentences surface idx = true) :
    verify_surface_form (TextVerifier.init source_text sentences) surface idx l r ≠
      some true := by
  unfold surface_unsupported at hu
  rw [Bool.and_eq_true] at hu
  obtain ⟨hu1, hu2⟩ := hu
  rw [Bool.not_eq_true'] at hu2
  unfold verify_surface_form
  simp only [TextVerifier.init]
  by_cases hlen : (((sentences.map pyLower).length : Int) ≤ idx)
  · rw [if_pos hlen]
    simp
  · rw [if_neg hlen]
    cases hget : pyListGet (sentences.map pyLower) idx with
    | none => simp
    | some sentence =>
      rw [hget] at hu1
      rw [Bool.not_eq_true'] at hu1
      dsimp only
      rw [if_pos]
      · simp
      · rw [hu1, hu2]
        simp

/-- The classifier agrees with the raw verification outcome. -/
theorem step_is_hall_eq_fails (env : VerifyEnv) (tv : TextVerifier)
    (cmap : List (String × String)) (item : ExtractionItem) :
    step_is_hall env tv cmap item = fails_verification tv item := by
  unfold fails_verification
  cases hv : verify_surface_form tv item.surface_form item.evidence.sentence_idx
      item.evidence.left_context item.evidence.right_context with
  | none =>
    unfold step_is_hall
    rw [itemStep_of_verify_none env tv cmap item hv]
    simp
  | some b =>
    cases b with
    | false =>
      unfold step_is_hall
      rw [itemStep_of_verify_false env tv cmap item hv]
      simp
    | true =>
      cases hsh : step_is_hall env tv cmap item with
      | true =>
        have := (step_is_hall_iff env tv cmap item).1 hsh
        rw [hv] at this
        cases this
      | false => simp

set_option maxHeartbeats 2000000 in
/-- C1 (amended): in a call that returns, the hallucinated counter
counts exactly the candidates failing surface verification; every
candidate whose case-folded surface form occurs neither in the
case-folded sentence at its claimed index nor anywhere in the
case-folded source text fails that verification (so it contributes
exactly one to the counter), and no emitted VerifiedItem is such a
candidate. -/
theorem C1_hallucination_rejection :
    ∀ (env : VerifyEnv) (extraction : ExtractionOutput) (source_text : String)
      (out : VerifiedExtractionOutput),
      verify_and_canonicalize env extraction source_text = some out →
      (out.verification_stats.hallucinated = extraction.items.countP
        (fun it => fails_verification (pipelineTv extraction source_text) it)) ∧
      (∀ it ∈ extraction.items,
        surface_unsupported source_text
          (extraction.sentences.map (fun s => s.text))
          it.surface_form it.evidence.sentence_idx = true →
        fails_verification (pipelineTv extraction source_text) it = true) ∧
      (∀ v ∈ out.items,
        surface_unsupported source_text
          (extraction.sentences.map (fun s => s.text))
          v.surface_form v.evidence.sentence_idx = false) := by
  intro env extraction source_text out h
  obtain ⟨-, -, e3, -, e5, -, -, -, e9⟩ :=
    verify_and_canonicalize_elim env extraction source_text out h
  refine ⟨?_, ?_, ?_⟩
  · rw [e5]
    exact List.countP_congr (fun it _ => by
      rw [step_is_hall_eq_fails env (pipelineTv extraction source_text)
        (pipelineCmap env extraction) it])
  · intro it hit hu
    have hnotrue := unsupported_not_verified source_text
      (extraction.sentences.map (fun s => s.text)) it.surface_form
      it.evidence.sentence_idx it.evidence.left_context it.evidence.right_context hu
    have hsome := e9 it hit
    unfold fails_verification
    cases hv : verify_surface_form (pipelineTv extraction source_text) it.surface_form
        it.evidence.sentence_idx it.evidence.left_context it.evidence.right_context with
    | none =>
      rw [itemStep_of_verify_none env (pipelineTv extraction source_text)
        (pipelineCmap env extraction) it hv] at hsome
      simp at hsome
    | some b =>
      cases b with
      | false => simp
      | true => exact absurd hv hnotrue
  · intro v hv
    rw [e3] at hv
    obtain ⟨it, -, hemit⟩ := List.mem_filterMap.1 hv
    obtain ⟨hver, hveq, -, -⟩ := emitOf_eq_some env (pipelineTv extraction source_text)
      (pipelineCmap env extraction) it v hemit
    subst hveq
    cases hB : surface_unsupported source_text
        (extraction.sentences.map (fun s => s.text))
        (mkVerifiedItem it (final_canonical env (pipelineCmap env extraction) it)
          (dedup_lookup env it (resolve_canonical env (pipelineCmap env extraction) it))).surface_form
        (mkVerifiedItem it (final_canonical env (pipelineCmap env extraction) it)
          (dedup_lookup env it (resolve_canonical env (pipelineCmap env extraction) it))).evidence.sentence_idx with
    | false => rfl
    | true =>
      have hnottrue := unsupported_not_verified source_text
        (extraction.sentences.map (fun s => s.text)) it.surface_form
        it.evidence.sentence_idx it.evidence.left_context it.evidence.right_context hB
      have hver2 : verify_surface_form (TextVerifier.init source_text
          (extraction.sentences.map (fun s => s.text))) it.surface_form
          it.evidence.sentence_idx it.evidence.left_context
          it.evidence.right_context = some true := hver
      exact absurd hver2 hnottrue

/-- Counterexample to C1 as stated: a candidate whose surface form
occurs nowhere, with sentence index -2 against one sentence.  Instead
of dropping it and bumping the hallucinated counter, the call raises
(returns no output at all): Python list indexing raises IndexError for
an index below -len(sentences). -/
theorem C1_counterexample :
    surface_unsupported "hund." ["hund."] itemGhostNeg.surface_form
      itemGhostNeg.evidence.sentence_idx = true ∧
    verify_and_canonicalize envPlain extHallNeg "hund." = none := by
  constructor
  · decide
  · decide

/-- Witness for the amended C1 on a concrete returning call. -/
theorem C1_hallucination_rejection_witness :
    outHall0.verification_stats.hallucinated = extHall0.items.countP
      (fun it => fails_verification (pipelineTv extHall0 "hund.") it) :=
  (C1_hallucination_rejection envPlain extHall0 "hund." outHall0 (by decide)).1

/-- C4 (amended): the verifier fails closed only for sentence indices
at or above the sentence count; a negative index wraps around
Python-style when it is within -len(sentences), and raises (no boolean
result) when it is below -len(sentences). -/
theorem C4_index_handling :
    ∀ (tv : TextVerifier) (surface : String) (idx : Int) (l r : String),
      ((tv.sentences.length : Int) ≤ idx →
        verify_surface_form tv surface idx l r = some false) ∧
      (idx + (tv.sentences.length : Int) < 0 →
        verify_surface_form tv surface idx l r = none) ∧
      (idx < 0 → 0 ≤ idx + (tv.sentences.length : Int) →
        verify_surface_form tv surface idx l r =
          verify_surface_form tv surface (idx + tv.sentences.length) l r) := by
  intro tv surface idx l r
  refine ⟨?_, ?_, ?_⟩
  · intro h
    unfold verify_surface_form
    rw [if_pos h]
  · intro h
    unfold verify_surface_form
    rw [if_neg (by omega)]
    have hget : pyListGet tv.sentences idx = none := by
      unfold pyListGet
      rw [if_pos (show idx < 0 by omega)]
      rw [if_neg (by omega)]
    rw [hget]
  · intro h1 h2
    unfold verify_surface_form
    rw [if_neg (by omega), if_neg (by omega)]
    have hget : pyListGet tv.sentences idx =
        pyListGet tv.sentences (idx + tv.sentences.length) := by
      simp only [pyListGet]
      rw [if_pos h1,
        if_neg (show ¬(idx + (tv.sentences.length : Int) < 0) from by omega)]
    rw [hget]

/-- Counterexample to C4 as stated: a negative index does not fail
closed — index -1 wraps to the last sentence and the candidate
verifies. -/
theorem C4_counterexample :
    verify_surface_form tvHund "Hund" (-1) "" "" = some true := by decide

/-- Witness for the amended C4 at concrete indices: 3 is at-or-above
the count and fails closed; -5 is below -len and raises. -/
theorem C4_index_handling_witness :
    verify_surface_form tvHund "Hund" 3 "" "" = some false ∧
    verify_surface_form tvHund "Hund" (-5) "" "" = none :=
  ⟨(C4_index_handling tvHund "Hund" 3 "" "").1 (by decide),
   (C4_index_handling tvHund "Hund" (-5) "" "").2.1 (by decide)⟩

/-- C9: the deduplicated counter is bumped before the blank-form and
pattern-metadata checks, so a candidate can be counted as deduplicated
and still be dropped as invalid; deduplicated then exceeds the number
of returned items carrying an existing_item_id. -/
theorem C9_dedup_before_validation :
    verify_and_canonicalize envDedupPattern extPatternDedup "hund." = some outPatternDedup ∧
    outPatternDedup.verification_stats.deduplicated = 1 ∧
    outPatternDedup.verification_stats.invalid = 1 ∧
    outPatternDedup.items.countP (fun v => v.existing_item_id.isSome) = 0 ∧
    outPatternDedup.items.countP (fun v => v.existing_item_id.isSome) <
      outPatternDedup.verification_stats.deduplicated := by
  refine ⟨by decide, by decide, by decide, by decide, by decide⟩

/-- C5 (amended): single-item canonicalization is total and fail-open —
for any non-empty surface form and any behaviour of the generation
call, compute_canonical returns a non-empty canonical form (worst case
the surface form itself).  Batched canonicalization echoes every
surface form only on a failed generation call or when there is no
word-type item; a successful generation call's mapping is returned
unvalidated, so its values may be blank. -/
theorem C5_canonicalization_totality :
    (∀ (env : LlmEnv) (surface item_type : String) (pos : Option String),
      surface ≠ "" → compute_canonical env surface item_type pos ≠ "") ∧
    (∀ (env : LlmEnv) (items : List ExtractionItem),
      (wordTriples items).isEmpty = true ∨ env.batch_json (wordTriples items) = none →
      batch_compute_canonical env items =
        items.map (fun i => (i.surface_form, i.surface_form))) := by
  constructor
  · intro env surface item_type pos hs
    unfold compute_canonical
    by_cases h1 : item_type = "pattern"
    · rw [if_pos h1]; exact hs
    · rw [if_neg h1]
      by_cases h2 : item_type = "chunk"
      · rw [if_pos h2]; exact hs
      · rw [if_neg h2]
        by_cases h3 : env.use_llm = true
        · rw [if_pos h3]
          unfold llm_lemmatize
          cases env.lemma_json surface item_type pos with
          | none => exact hs
          | some response_dict =>
            dsimp only
            by_cases h4 : pyStrip ((dictGet response_dict "lemma").getD "") = ""
            · rw [if_pos h4]; exact hs
            · rw [if_neg h4]; exact h4
        · rw [if_neg h3]
          exact hs
  · intro env items h
    unfold batch_compute_canonical
    by_cases h0 : items.isEmpty = true
    · rw [if_pos h0]
      cases items with
      | nil => rfl
      | cons x xs => cases h0
    · rw [if_neg h0]
      rcases h with h | h
      · rw [if_pos h]
      · by_cases h1 : (wordTriples items).isEmpty = true
        · rw [if_pos h1]
        · rw [if_neg h1, h]

/-- Counterexample to C5 as stated: a successful batched generation
call can map a non-empty surface form to a blank canonical form, and
batch_compute_canonical passes it through. -/
theorem C5_counterexample :
    dictGet (batch_compute_canonical llmBlankBatch [itemHunde]) "Hunde" = some "" ∧
    itemHunde.surface_form = "Hunde" ∧ "Hunde" ≠ "" := by
  refine ⟨by decide, by decide, by decide⟩

/-- Witness for the amended C5 at a concrete surface form and
environment. -/
theorem C5_canonicalization_totality_witness :
    compute_canonical llmOff "Hunde" "word" none ≠ "" ∧
    batch_compute_canonical llmOff [itemHunde] =
      [itemHunde].map (fun i => (i.surface_form, i.surface_form)) :=
  ⟨(C5_canonicalization_totality.1 llmOff "Hunde" "word" none (by decide)),
   (C5_canonicalization_totality.2 llmOff [itemHunde] (Or.inr (by decide)))⟩

/-- The merge loop counts one success per non-failed batch result. -/
theorem foldl_mergeStep_successful :
    ∀ (results : List (Except Unit ExtractionOutput)) (acc : MergeAcc),
      (results.foldl mergeStep acc).successful =
        acc.successful + results.countP (fun r => !(batch_failed r)) := by
  intro results
  induction results with
  | nil => intro acc; simp
  | cons r rest ih =>
    intro acc
    simp only [List.foldl_cons, List.countP_cons]
    rw [ih]
    cases r with
    | error e => simp [mergeStep, batch_failed]
    | ok out =>
      by_cases hf : (out.items.isEmpty && out.sentences.isEmpty) = true
      · simp [mergeStep, batch_failed, hf]
      · simp [mergeStep, batch_failed, hf]
        omega

/-- Complementary counts: non-failed plus failed is the batch count. -/
theorem countP_not_add {α : Type} (p : α → Bool) :
    ∀ l : List α, l.countP (fun a => !(p a)) + l.countP p = l.length := by
  intro l
  induction l with
  | nil => simp
  | cons a rest ih =>
    simp only [List.countP_cons, List.length_cons]
    cases h : p a <;> simp [h] <;> omega

/-- C2 (amended): when strictly more than half of the sentence groups
fail — equivalently, when the successful count is below len/2 under
true division — the batched driver discards the partial merge and
returns the single non-batched extraction over the full text.  (At a
failed fraction of exactly 50% the partial merge is kept; see the
counterexample.) -/
theorem C2_batch_fallback :
    ∀ (env : ExtractEnv) (text : String) (batch_size : Nat),
      2 ≤ (split_into_sentence_batches text batch_size).length →
      (split_into_sentence_batches text batch_size).length <
        2 * (((split_into_sentence_batches text batch_size).map
          (extract_items env)).countP batch_failed) →
      extract_items_batched env text batch_size = extract_items env text := by
  intro env text batch_size h2 hf
  have hcond : (((split_into_sentence_batches text batch_size).map
      (extract_items env)).foldl mergeStep emptyMergeAcc).successful * 2 <
      (split_into_sentence_batches text batch_size).length := by
    have hs := foldl_mergeStep_successful
      ((split_into_sentence_batches text batch_size).map (extract_items env)) emptyMergeAcc
    have hn := countP_not_add batch_failed
      ((split_into_sentence_batches text batch_size).map (extract_items env))
    have hlen : ((split_into_sentence_batches text batch_size).map
        (extract_items env)).length = (split_into_sentence_batches text batch_size).length :=
      List.length_map _ _
    have h0 : emptyMergeAcc.successful = 0 := rfl
    omega
  unfold extract_items_batched
  rw [if_neg (by omega : ¬(split_into_sentence_batches text batch_size).length = 1)]
  rw [if_pos hcond]

/-- Counterexample to C2 as stated: two sentence groups, one failed —
the failed fraction is exactly 50%, i.e. ceil(N/2) = 1 group failed —
yet the driver keeps the partial merge instead of falling back to the
single full-text call. -/
theorem C2_counterexample :
    (split_into_sentence_batches "Aa bb. Cc dd." 1).length = 2 ∧
    ((split_into_sentence_batches "Aa bb. Cc dd." 1).map
      (extract_items envHalfFail)).countP batch_failed = 1 ∧
    extract_items_batched envHalfFail "Aa bb. Cc dd." 1 = Except.ok mergedHalf ∧
    extract_items envHalfFail "Aa bb. Cc dd." = Except.ok outFull ∧
    mergedHalf ≠ outFull := by
  refine ⟨by decide, by decide, by rfl, by rfl, by decide⟩

/-- Witness for the amended C2: both groups fail, and the batched call
returns exactly the single full-text extraction. -/
theorem C2_batch_fallback_witness :
    extract_items_batched envAllFail "Aa bb. Cc dd." 1 =
      extract_items envAllFail "Aa bb. Cc dd." :=
  C2_batch_fallback envAllFail "Aa bb. Cc dd." 1 (by decide) (by decide)

/-- Each removal condition of validate_and_filter_items makes the keep
test false.  Note the stop-list and proper-noun conditions apply only
to non-pattern items, and the metadata conditions only to pattern
items. -/
theorem keep_item_false_of (it : ExtractionItem)
    (h : pyStrip it.canonical = "" ∨ pyStrip it.surface_form = "" ∨
      (it.type ≠ "pattern" ∧
        (FILTER_LIST.contains (pyLower (pyStrip it.canonical)) = true ∨
         FILTER_LIST.contains (pyLower (pyStrip it.surface_form)) = true ∨
         is_likely_proper_noun (pyStrip it.canonical) = true ∨
         is_likely_proper_noun (pyStrip it.surface_form) = true)) ∨
      (it.type = "pattern" ∧
        (it.pattern_meta = none ∨
         ∃ pm, it.pattern_meta = some pm ∧
           (pyStrip pm.grammar_rule = "" ∨
            VALID_STRUCTURE_TYPES.contains pm.structure_type = false)))) :
    keep_item it = false := by
  unfold keep_item
  by_cases h1 : pyStrip it.canonical = ""
  · rw [if_pos h1]
  · rw [if_neg h1]
    by_cases h2 : pyStrip it.surface_form = ""
    · rw [if_pos h2]
    · rw [if_neg h2]
      dsimp only
      by_cases h3 : it.type = "pattern"
      · rw [if_pos h3]
        rcases h with h | h | ⟨hne, -⟩ | ⟨-, hp⟩
        · exact absurd h h1
        · exact absurd h h2
        · exact absurd h3 hne
        · rcases hp with hp | ⟨pm, hpm, hbad⟩
          · rw [hp]
          · rw [hpm]
            dsimp only
            rcases hbad with hb | hb
            · rw [if_pos hb]
            · by_cases h4 : pyStrip pm.grammar_rule = ""
              · rw [if_pos h4]
              · rw [if_neg h4, hb]
                rfl
      · rw [if_neg h3]
        rcases h with h | h | ⟨-, hf⟩ | ⟨hp, -⟩
        · exact absurd h h1
        · exact absurd h h2
        · repeat' split
          all_goals first
            | rfl
            | (rcases hf with hf | hf | hf | hf <;> contradiction)
        · exact absurd hp h3

/-- C10 (amended): extract_items applies validate_and_filter_items
before any verification runs; a candidate with a blank trimmed form, a
non-pattern candidate with a stop-list or known-proper-noun form, and a
pattern candidate without well-formed metadata are all silently
removed (pattern candidates are exempt from the stop-list and
proper-noun filters); the removed candidates never reach the
verification statistics, whose total counts only the surviving
items. -/
theorem C10_prefilter :
    ∀ (env : ExtractEnv) (text : String) (raw out : ExtractionOutput),
      env.gen text = Except.ok raw →
      extract_items env text = Except.ok out →
      out.items = raw.items.filter keep_item ∧
      (∀ it ∈ raw.items,
        (pyStrip it.canonical = "" ∨ pyStrip it.surface_form = "" ∨
          (it.type ≠ "pattern" ∧
            (FILTER_LIST.contains (pyLower (pyStrip it.canonical)) = true ∨
             FILTER_LIST.contains (pyLower (pyStrip it.surface_form)) = true ∨
             is_likely_proper_noun (pyStrip it.canonical) = true ∨
             is_likely_proper_noun (pyStrip it.surface_form) = true)) ∨
          (it.type = "pattern" ∧
            (it.pattern_meta = none ∨
             ∃ pm, it.pattern_meta = some pm ∧
               (pyStrip pm.grammar_rule = "" ∨
                VALID_STRUCTURE_TYPES.contains pm.structure_type = false)))) →
        it ∉ out.items) ∧
      (∀ (venv : VerifyEnv) (src : String) (vout : VerifiedExtractionOutput),
        verify_and_canonicalize venv out src = some vout →
        vout.verification_stats.total = out.items.length) := by
  intro env text raw out hg he
  unfold extract_items at he
  rw [hg] at he
  rw [Except.ok.injEq] at he
  subst he
  refine ⟨rfl, ?_, ?_⟩
  · intro it _ hcond hmem
    have hk := keep_item_false_of it hcond
    have : keep_item it = true := (List.mem_filter.1 hmem).2
    rw [hk] at this
    cases this
  · intro venv src vout hv
    exact (verify_and_canonicalize_elim venv _ src vout hv).2.2.2.1

/-- Counterexample to C10 as stated: a pattern candidate whose trimmed,
case-folded canonical and surface forms are the stop-list word und
survives extract_items untouched — the stop-list filter is skipped for
pattern items. -/
theorem C10_counterexample :
    extract_items envUndPattern "irrelevant" =
      Except.ok { sentences := [], items := [itemUndPattern], edges := [] } ∧
    pyLower (pyStrip itemUndPattern.canonical) = "und" ∧
    pyLower (pyStrip itemUndPattern.surface_form) = "und" ∧
    FILTER_LIST.contains "und" = true := by
  refine ⟨by rfl, by decide, by decide, by decide⟩

/-- Witness for the amended C10: the stop-list word item is removed
from the concrete mixed extraction. -/
theorem C10_prefilter_witness : itemUndWord ∉ outMixed.items :=
  (C10_prefilter envMixed "x" rawMixed outMixed (by rfl) (by rfl)).2.1 itemUndWord
    (by decide)
    (Or.inr (Or.inr (Or.inl ⟨by decide, Or.inl (by decide)⟩)))

/-- A successful find? splits the list at the first hit. -/
theorem find?_eq_some_split {α : Type} (p : α → Bool) :
    ∀ (l : List α) (x : α), l.find? p = some x →
      ∃ l1 l2, l = l1 ++ x :: l2 ∧ p x = true ∧ ∀ y ∈ l1, p y = false := by
  intro l
  induction l with
  | nil => intro x h; cases h
  | cons a rest ih =>
    intro x h
    cases hp : p a with
    | true =>
      rw [List.find?_cons_of_pos rest hp, Option.some.injEq] at h
      subst h
      exact ⟨[], rest, rfl, hp, by intro y hy; cases hy⟩
    | false =>
      rw [List.find?_cons_of_neg rest (by simp [hp])] at h
      obtain ⟨l1, l2, he, hx, hall⟩ := ih x h
      refine ⟨a :: l1, l2, by rw [he]; rfl, hx, ?_⟩
      intro y hy
      rcases List.mem_cons.1 hy with hy | hy
      · subst hy; exact hp
      · exact hall y hy

/-- Insertion keeps exactly the old elements plus the new one. -/
theorem mem_insertByCreatedDesc :
    ∀ (l : List Item) (x a : Item), a ∈ insertByCreatedDesc x l ↔ a = x ∨ a ∈ l := by
  intro l
  induction l with
  | nil => intro x a; simp [insertByCreatedDesc]
  | cons y ys ih =>
    intro x a
    unfold insertByCreatedDesc
    by_cases hc : x.created_at ≤ y.created_at
    · rw [if_pos hc]
      rw [List.mem_cons, ih x a, List.mem_cons]
      tauto
    · rw [if_neg hc]
      rw [List.mem_cons, List.mem_cons]

/-- Insertion preserves descending order by created_at. -/
theorem pairwise_insertByCreatedDesc :
    ∀ (l : List Item) (x : Item),
      l.Pairwise (fun a b => b.created_at ≤ a.created_at) →
      (insertByCreatedDesc x l).Pairwise (fun a b => b.created_at ≤ a.created_at) := by
  intro l
  induction l with
  | nil => intro x _; simp [insertByCreatedDesc]
  | cons y ys ih =>
    intro x hp
    rw [List.pairwise_cons] at hp
    obtain ⟨hy, hys⟩ := hp
    unfold insertByCreatedDesc
    by_cases hc : x.created_at ≤ y.created_at
    · rw [if_pos hc]
      rw [List.pairwise_cons]
      refine ⟨?_, ih x hys⟩
      intro a ha
      rcases (mem_insertByCreatedDesc ys x a).1 ha with ha | ha
      · subst ha; exact hc
      · exact hy a ha
    · rw [if_neg hc]
      rw [List.pairwise_cons]
      refine ⟨?_, List.pairwise_cons.2 ⟨hy, hys⟩⟩
      intro a ha
      rcases List.mem_cons.1 ha with ha | ha
      · subst ha; omega
      · exact le_trans (hy a ha) (by omega)

/-- The sort is ordered by created_at descending. -/
theorem sortByCreatedDesc_pairwise (l : List Item) :
    (sortByCreatedDesc l).Pairwise (fun a b => b.created_at ≤ a.created_at) := by
  unfold sortByCreatedDesc
  refine foldl_preserves (fun acc => acc.Pairwise (fun a b => b.created_at ≤ a.created_at))
    (fun acc x => insertByCreatedDesc x acc) l [] (by simp) ?_
  intro acc x _ hacc
  exact pairwise_insertByCreatedDesc acc x hacc

/-- The sort keeps exactly the input elements. -/
theorem mem_sortByCreatedDesc :
    ∀ (l : List Item) (a : Item), a ∈ sortByCreatedDesc l ↔ a ∈ l := by
  have key : ∀ (l : List Item) (acc : List Item) (a : Item),
      a ∈ l.foldl (fun acc x => insertByCreatedDesc x acc) acc ↔ a ∈ acc ∨ a ∈ l := by
    intro l
    induction l with
    | nil => intro acc a; simp
    | cons x xs ih =>
      intro acc a
      rw [List.foldl_cons, ih, mem_insertByCreatedDesc, List.mem_cons]
      tauto
  intro l a
  unfold sortByCreatedDesc
  rw [key l [] a]
  simp

set_option maxHeartbeats 1000000 in
/-- C3: find_similar_items returns the exact match on (canonical_form,
type) when one exists; otherwise it scans the up-to-100
most-recently-created stored items of the same type in
most-recent-first order and returns the first with case-folded
similarity ratio at or above the 0.85 threshold, or none if all fall
below it; a ratio of exactly 0.85 = 17/20 passes the acceptance test
and 0.849 = 849/1000 does not. -/
theorem C3_find_similar_items :
    ∀ (db : List Item) (c t : String),
      (∀ e, db.find? (is_exact_match c t) = some e →
        find_similar_items db (85 / 100) c t = some e ∧
        e.canonical_form = c ∧ e.type = t ∧ e ∈ db) ∧
      (db.find? (is_exact_match c t) = none →
        ((find_similar_items db (85 / 100) c t = none ↔
            ∀ x ∈ recent_items db t, string_similarity c x.canonical_form < 85 / 100) ∧
         (∀ x, find_similar_items db (85 / 100) c t = some x →
            ∃ l1 l2, recent_items db t = l1 ++ x :: l2 ∧
              85 / 100 ≤ string_similarity c x.canonical_form ∧
              ∀ y ∈ l1, string_similarity c y.canonical_form < 85 / 100))) ∧
      (recent_items db t).length ≤ 100 ∧
      (recent_items db t).Pairwise (fun a b => b.created_at ≤ a.created_at) ∧
      (∀ x ∈ recent_items db t, x ∈ db ∧ x.type = t) ∧
      (∀ x : Item, string_similarity c x.canonical_form = 17 / 20 →
        similar_enough (85 / 100) c x = true) ∧
      (∀ x : Item, string_similarity c x.canonical_form = 849 / 1000 →
        similar_enough (85 / 100) c x = false) := by
  intro db c t
  refine ⟨?_, ?_, ?_, ?_, ?_, ?_, ?_⟩
  · intro e he
    have hp := List.find?_some he
    unfold is_exact_match at hp
    rw [Bool.and_eq_true, beq_iff_eq, beq_iff_eq] at hp
    refine ⟨?_, hp.1, hp.2, List.mem_of_find?_eq_some he⟩
    unfold find_similar_items
    rw [he]
  · intro hn
    have hres : find_similar_items db (85 / 100) c t =
        (recent_items db t).find? (similar_enough (85 / 100) c) := by
      unfold find_similar_items
      rw [hn]
    constructor
    · rw [hres, List.find?_eq_none]
      constructor
      · intro h x hx
        have := h x hx
        unfold similar_enough at this
        rw [decide_eq_true_eq] at this
        exact lt_of_not_le this
      · intro h x hx
        unfold similar_enough
        rw [decide_eq_true_eq]
        exact not_le_of_lt (h x hx)
    · intro x hx
      rw [hres] at hx
      obtain ⟨l1, l2, he, hxp, hall⟩ := find?_eq_some_split _ _ _ hx
      refine ⟨l1, l2, he, ?_, ?_⟩
      · unfold similar_enough at hxp
        rwa [decide_eq_true_eq] at hxp
      · intro y hy
        have := hall y hy
        unfold similar_enough at this
        rw [decide_eq_false_iff_not] at this
        exact lt_of_not_le this
  · unfold recent_items
    rw [List.length_take]
    exact min_le_left _ _
  · unfold recent_items
    exact (sortByCreatedDesc_pairwise _).sublist (List.take_sublist _ _)
  · intro x hx
    unfold recent_items at hx
    have hx2 : x ∈ sortByCreatedDesc (db.filter (fun it => it.type == t)) :=
      (List.take_sublist _ _).subset hx
    rw [mem_sortByCreatedDesc] at hx2
    have hx3 := List.mem_filter.1 hx2
    exact ⟨hx3.1, by have := hx3.2; rwa [beq_iff_eq] at this⟩
  · intro x h
    unfold similar_enough
    rw [h]
    rw [decide_eq_true_eq]
    norm_num
  · intro x h
    unfold similar_enough
    rw [h]
    rw [decide_eq_false_iff_not]
    norm_num

set_option maxHeartbeats 1000000 in
/-- Witness for C3: the exact-match path on a concrete store, and the
fuzzy path at a concrete similarity — the candidate hunde against the
stored canonical form hund has ratio 2*4/9 = 8/9 which is at or above
the 0.85 threshold, and the deduplicator returns that stored item as
the first qualifying one. -/
theorem C3_find_similar_items_witness :
    find_similar_items dbExact (85 / 100) "hund" "word" =
      some { id := 2, type := "word", canonical_form := "hund", created_at := 5 } ∧
    (∃ l1 l2, recent_items dbFuzzy2 "word" = l1 ++ itemFuzzy2 :: l2 ∧
      85 / 100 ≤ string_similarity "hunde" itemFuzzy2.canonical_form ∧
      ∀ y ∈ l1, string_similarity "hunde" y.canonical_form < 85 / 100) := by
  have hsim : string_similarity "hunde" itemFuzzy2.canonical_form = 8 / 9 := by
    have hl1 : (pyLower "hunde").data.length = 5 := by decide
    have hl2 : (pyLower itemFuzzy2.canonical_form).data.length = 4 := by decide
    have hm : matching_blocks_total (pyLower "hunde").data
        (pyLower itemFuzzy2.canonical_form).data 0 5 0 4 = 4 := by decide
    unfold string_similarity seqMatcherScore
    rw [hl1, hl2, hm]
    norm_num
  have hpx : similar_enough (85 / 100) "hunde" itemFuzzy2 = true := by
    unfold similar_enough
    rw [decide_eq_true_eq, hsim]
    norm_num
  have hres : find_similar_items dbFuzzy2 (85 / 100) "hunde" "word" = some itemFuzzy2 := by
    unfold find_similar_items
    rw [show dbFuzzy2.find? (is_exact_match "hunde" "word") = none from by rfl]
    rw [show recent_items dbFuzzy2 "word" = [itemFuzzy2] from by rfl]
    rw [List.find?_cons_of_pos _ hpx]
  refine ⟨?_, ?_⟩
  · exact ((C3_find_similar_items dbExact "hund" "word").1
      { id := 2, type := "word", canonical_form := "hund", created_at := 5 } (by rfl)).1
  · exact ((C3_find_similar_items dbFuzzy2 "hunde" "word").2.1 (by rfl)).2
      itemFuzzy2 hres

/-! ## Sanity checks of the embedding on concrete inputs -/

example : strIn "hund" "der hund bellt." = true := by decide
example : strIn "katze" "der hund bellt." = false := by decide
example : strIn "" "x" = true := by decide
example : pyListGet ["a", "b"] (-1) = some "b" := by decide
example : pyListGet ["a", "b"] (-3) = none := by decide
example : pyListGet ["a", "b"] 2 = none := by decide
example :
    verify_surface_form (TextVerifier.init "Der Hund bellt." ["Der Hund bellt."])
      "Hund" 0 "" "" = some true := by decide
example :
    verify_surface_form (TextVerifier.init "Der Hund bellt." ["Der Hund bellt."])
      "Katze" 0 "" "" = some false := by decide
example :
    verify_surface_form (TextVerifier.init "Der Hund bellt." ["Der Hund bellt."])
      "Hund" (-1) "" "" = some true := by decide
example :
    verify_surface_form (TextVerifier.init "Der Hund bellt." ["Der Hund bellt."])
      "Hund" (-2) "" "" = none := by decide
example :
    verify_surface_form (TextVerifier.init "Der Hund bellt." ["Der Hund bellt."])
      "Hund" 7 "" "" = some false := by decide
example : matching_blocks_total "hund".data "hund".data 0 4 0 4 = 4 := by decide
example : matching_blocks_total "abcd".data "wxyz".data 0 4 0 4 = 0 := by decide
example : matching_blocks_total "abxab".data "ab".data 0 5 0 2 = 2 := by decide
example : matching_blocks_total "caba".data "abac".data 0 4 0 4 = 3 := by decide
example :
    split_into_sentence_batches "Aa bb. Cc dd." 1 = ["Aa bb.", "Cc dd."] := by decide
example :
    split_into_sentence_batches "Aa bb. Cc dd." 2 = ["Aa bb. Cc dd."] := by decide
example :
    split_into_sentence_batches "A. Schmidt kommt heute." 1 =
      ["A.", "Schmidt kommt heute."] := by decide
example : split_into_sentence_batches "kein satzende" 3 = ["kein satzende"] := by decide
example : pyReSplitSentences "Hallo! Wie geht es?  Gut." = ["Hallo!", "Wie geht es?", "Gut."] := by decide

/-- C7 (code bug): the sentence splitter's negative lookbehind cannot
guard single-letter abbreviations — both lookbehinds of
`(?<![A-Z])(?<=[.!?])\s+` inspect the same preceding character, and a
character in `[.!?]` is never in `[A-Z]`, so the guard is vacuous and
the period of "A. Schmidt" does produce a sentence boundary. -/
theorem C7_split_at_abbreviation :
    split_into_sentence_batches "A. Schmidt kommt heute." 1 =
      ["A.", "Schmidt kommt heute."] ∧
    (∀ prev : Char, sentenceBoundaryBefore prev =
      (prev = '.' || prev = '!' || prev = '?')) := by
  constructor
  · decide
  · intro prev
    unfold sentenceBoundaryBefore
    cases h : (prev = '.' || prev = '!' || prev = '?') with
    | false => simp
    | true =>
      simp only [Bool.and_eq_true, h, Bool.true_and, true_and]
      rw [Bool.not_eq_true']
      rw [Bool.or_eq_true, Bool.or_eq_true] at h
      rcases h with (h | h) | h <;> rw [decide_eq_true_eq] at h <;> subst h <;> decide
